import Mathlib

/-!
A shallow embedding of `src/idk_webhook.py` (the IntraDesk → Telegram webhook
receiver): text normalization and echo detection, payload parsing (comment
candidates and status extraction), the SQLite-backed ticket state, the event
deduplicator, and the reconciliation pass `idk_webhook`.

Python strings are modelled as Lean strings (lists of unicode scalar values).
Outcomes of Python library calls that are not repository code — `json.loads`
and its escaped-decode fallbacks, `int()` on a string, and
`difflib.SequenceMatcher(...).ratio() >= 0.88` — are carried as explicit data
(fields of the string value) or as a function parameter; each such modelling
choice is documented at the definition that makes it.
-/

/-- The invisible characters removed by the soft normalizer: the regex class
`[​‌‍︎️]` of `_normalize_for_db`. -/
def isInvisible (c : Char) : Bool :=
  c.toNat == 0x200B || c.toNat == 0x200C || c.toNat == 0x200D ||
  c.toNat == 0xFE0E || c.toNat == 0xFE0F

/-- Python's whitespace class: what the regex `\s` (unicode mode) and
`str.strip()` treat as whitespace. -/
def isPySpace (c : Char) : Bool :=
  c == ' ' || c == '\t' || c == '\n' || c == '\r' ||
  c.toNat == 0x0B || c.toNat == 0x0C ||
  (0x1C ≤ c.toNat && c.toNat ≤ 0x1F) || c.toNat == 0x85 || c.toNat == 0xA0 ||
  c.toNat == 0x1680 || (0x2000 ≤ c.toNat && c.toNat ≤ 0x200A) ||
  c.toNat == 0x2028 || c.toNat == 0x2029 || c.toNat == 0x202F ||
  c.toNat == 0x205F || c.toNat == 0x3000

/-- Alphanumeric characters kept by `_normalize_strict` (the regex
`[\W_]+` removes everything that is not a word character, and the underscore).
Python's `\w` is unicode-aware; the repository handles Russian and English
text, so letters are modelled as ASCII letters, ASCII digits and the Cyrillic
block А-я plus Ё/ё. -/
def isAlnumPy (c : Char) : Bool :=
  ('a' ≤ c && c ≤ 'z') || ('A' ≤ c && c ≤ 'Z') || ('0' ≤ c && c ≤ '9') ||
  (0x410 ≤ c.toNat && c.toNat ≤ 0x44F) || c.toNat == 0x401 || c.toNat == 0x451

/-- Python's `\w` word-character class (`isAlnumPy` plus the underscore),
used by the `intradesk` pseudo-tag pattern. -/
def isWordPy (c : Char) : Bool := isAlnumPy c || c == '_'

/-- A character of `[-\w:]`, the tag-name class of the pattern
`</?intradesk[-\w:]+[^>]*>`. -/
def isTagNameChar (c : Char) : Bool := isWordPy c || c == '-' || c == ':'

/-- Python's `str.lower` restricted to the character ranges this repository
handles (ASCII and Cyrillic); every other character is left unchanged. -/
def pyLower (c : Char) : Char :=
  match c with
  | 'A' => 'a' | 'B' => 'b' | 'C' => 'c' | 'D' => 'd' | 'E' => 'e' | 'F' => 'f'
  | 'G' => 'g' | 'H' => 'h' | 'I' => 'i' | 'J' => 'j' | 'K' => 'k' | 'L' => 'l'
  | 'M' => 'm' | 'N' => 'n' | 'O' => 'o' | 'P' => 'p' | 'Q' => 'q' | 'R' => 'r'
  | 'S' => 's' | 'T' => 't' | 'U' => 'u' | 'V' => 'v' | 'W' => 'w' | 'X' => 'x'
  | 'Y' => 'y' | 'Z' => 'z'
  | 'А' => 'а' | 'Б' => 'б' | 'В' => 'в' | 'Г' => 'г' | 'Д' => 'д' | 'Е' => 'е'
  | 'Ж' => 'ж' | 'З' => 'з' | 'И' => 'и' | 'Й' => 'й' | 'К' => 'к' | 'Л' => 'л'
  | 'М' => 'м' | 'Н' => 'н' | 'О' => 'о' | 'П' => 'п' | 'Р' => 'р' | 'С' => 'с'
  | 'Т' => 'т' | 'У' => 'у' | 'Ф' => 'ф' | 'Х' => 'х' | 'Ц' => 'ц' | 'Ч' => 'ч'
  | 'Ш' => 'ш' | 'Щ' => 'щ' | 'Ъ' => 'ъ' | 'Ы' => 'ы' | 'Ь' => 'ь' | 'Э' => 'э'
  | 'Ю' => 'ю' | 'Я' => 'я' | 'Ё' => 'ё'
  | other => other

/-- The regex `\r\n?` → `\n`: a carriage return, optionally followed by a
line feed, becomes one line feed. -/
def crToLf : List Char → List Char
  | [] => []
  | '\r' :: '\n' :: rest => '\n' :: crToLf rest
  | '\r' :: rest => '\n' :: crToLf rest
  | c :: rest => c :: crToLf rest

/-- `re.sub(p+, r, s)` for a character class `p`: every maximal run of
characters satisfying `p` is replaced by the single character `r`. -/
def collapseRuns (p : Char → Bool) (r : Char) : List Char → List Char
  | [] => []
  | [a] => [if p a then r else a]
  | a :: b :: rest =>
    if p a && p b then collapseRuns p r (b :: rest)
    else (if p a then r else a) :: collapseRuns p r (b :: rest)

/-- Python's `str.strip()`: drop whitespace from both ends. -/
def pyStrip (l : List Char) : List Char :=
  ((l.dropWhile isPySpace).reverse.dropWhile isPySpace).reverse

/-- The character pipeline of `_normalize_for_db`: drop invisible
selectors/ZWJ, normalize line endings, collapse whitespace runs to one
space, strip, and lower-case. -/
def softNormList (l : List Char) : List Char :=
  (pyStrip (collapseRuns isPySpace ' '
    (crToLf (l.filter (fun c => !isInvisible c))))).map pyLower

/-- Soft normalization `_normalize_for_db` (src/idk_webhook.py lines
128-136). `None` and the empty string normalize to the empty string. -/
def _normalize_for_db : Option String → String
  | Option.none => ""
  | some s => if s = "" then "" else String.mk (softNormList s.data)

/-- Strict normalization `_normalize_strict` (lines 139-142): soft
normalization, then keep only alphanumeric characters
(`re.sub(r"[\W_]+", "", soft)`). -/
def _normalize_strict (s : Option String) : String :=
  String.mk ((_normalize_for_db s).data.filter isAlnumPy)

/-- Whether `a` occurs as a contiguous substring of `b` (Python's `in` on
strings; the empty string is a substring of everything). -/
def containsSub (a : List Char) : List Char → Bool
  | [] => a.isEmpty
  | c :: rest => a.isPrefixOf (c :: rest) || containsSub a rest

/-- Strip one pair of surrounding double quotes (`clean_intradesk_html`,
first step: a string of length ≥ 2 whose first and last characters are `"`
loses both). -/
def stripQuotes (l : List Char) : List Char :=
  if 2 ≤ l.length && (l.head? == some '"') && (l.getLast? == some '"') then
    (l.drop 1).dropLast
  else l

/-- Scan past the first `>`: `some` of what follows it, or `none` when the
list has no `>`. -/
def afterGt : List Char → Option (List Char)
  | [] => Option.none
  | '>' :: rest => some rest
  | _ :: rest => afterGt rest

/-- Try to match the tail of the case-insensitive regex `<br\s*/?>` after the
characters `<br`: optional whitespace, an optional `/`, then `>`. Returns the
remainder on a match. -/
def brTail (l : List Char) : Option (List Char) :=
  match l.dropWhile isPySpace with
  | '/' :: '>' :: rest => some rest
  | '>' :: rest => some rest
  | _ => Option.none

/-- One fuel-indexed pass of `re.sub(r"(?i)<br\s*/?>", "\n", t)`: each
occurrence of a `<br>` tag becomes a line feed. The fuel is the input length,
enough since every step consumes at least one character. -/
def brToNewlineAux : Nat → List Char → List Char
  | 0, l => l
  | _ + 1, [] => []
  | fuel + 1, '<' :: c1 :: c2 :: rest =>
    if (c1 == 'b' || c1 == 'B') && (c2 == 'r' || c2 == 'R') then
      match brTail rest with
      | some rest2 => '\n' :: brToNewlineAux fuel rest2
      | Option.none => '<' :: brToNewlineAux fuel (c1 :: c2 :: rest)
    else '<' :: brToNewlineAux fuel (c1 :: c2 :: rest)
  | fuel + 1, c :: rest => c :: brToNewlineAux fuel rest

def brToNewline (l : List Char) : List Char := brToNewlineAux l.length l

/-- Try to match the tail of `</?intradesk[-\w:]+[^>]*>` after the `<`: an
optional `/`, the literal `intradesk`, at least one tag-name character, then
anything up to the closing `>`. Returns the remainder on a match. -/
def intraTail (l : List Char) : Option (List Char) :=
  let l1 := match l with
    | '/' :: r => r
    | other => other
  if ("intradesk".data).isPrefixOf l1 then
    match l1.drop 9 with
    | c :: rest => if isTagNameChar c then afterGt rest else Option.none
    | [] => Option.none
  else Option.none

/-- Fuel-indexed `re.sub(r"</?intradesk[-\w:]+[^>]*>", "", t)`. -/
def stripIntraAux : Nat → List Char → List Char
  | 0, l => l
  | _ + 1, [] => []
  | fuel + 1, '<' :: rest =>
    match intraTail rest with
    | some rest2 => stripIntraAux fuel rest2
    | Option.none => '<' :: stripIntraAux fuel rest
  | fuel + 1, c :: rest => c :: stripIntraAux fuel rest

def stripIntradeskTags (l : List Char) : List Char := stripIntraAux l.length l

/-- Try to match the tail of `<[^>]+>` after the `<`: at least one character
that is not `>`, then `>`. Returns the remainder on a match. -/
def tagTail (l : List Char) : Option (List Char) :=
  match l with
  | [] => Option.none
  | '>' :: _ => Option.none
  | _ :: rest => afterGt rest

/-- Fuel-indexed `re.sub(r"<[^>]+>", "", t)`: every remaining markup tag is
removed. -/
def stripTagsAux : Nat → List Char → List Char
  | 0, l => l
  | _ + 1, [] => []
  | fuel + 1, '<' :: rest =>
    match tagTail rest with
    | some rest2 => stripTagsAux fuel rest2
    | Option.none => '<' :: stripTagsAux fuel rest
  | fuel + 1, c :: rest => c :: stripTagsAux fuel rest

def stripTags (l : List Char) : List Char := stripTagsAux l.length l

/-- Python's `html.unescape`, modelled for the named/numeric entities that
occur in IntraDesk payloads (`&amp;` `&lt;` `&gt;` `&quot;` `&nbsp;`); the
full entity table of the standard library is not reproduced. -/
def htmlUnescape : List Char → List Char
  | [] => []
  | '&' :: 'a' :: 'm' :: 'p' :: ';' :: rest => '&' :: htmlUnescape rest
  | '&' :: 'l' :: 't' :: ';' :: rest => '<' :: htmlUnescape rest
  | '&' :: 'g' :: 't' :: ';' :: rest => '>' :: htmlUnescape rest
  | '&' :: 'q' :: 'u' :: 'o' :: 't' :: ';' :: rest => '"' :: htmlUnescape rest
  | '&' :: 'n' :: 'b' :: 's' :: 'p' :: ';' :: rest => Char.ofNat 0xA0 :: htmlUnescape rest
  | c :: rest => c :: htmlUnescape rest

/-- The regex `\n{3,}` → `\n\n`: runs of three or more line feeds collapse to
exactly two. -/
def collapseBlankLines : List Char → List Char
  | '\n' :: '\n' :: '\n' :: rest => collapseBlankLines ('\n' :: '\n' :: rest)
  | c :: rest => c :: collapseBlankLines rest
  | [] => []

/-- A horizontal-whitespace character, the class `[ \t]`. -/
def isHorizWs (c : Char) : Bool := c == ' ' || c == '\t'

/-- `clean_intradesk_html` (src/idk_webhook.py lines 225-241): strip a
surrounding quote pair, turn `<br>` tags into line feeds, drop
`intradesk`-namespaced pseudo-tags, drop all remaining tags, decode HTML
entities, normalize line endings, collapse horizontal whitespace, collapse
runs of blank lines, and strip. The empty string stays empty. -/
def clean_intradesk_html (s : String) : String :=
  if s = "" then ""
  else String.mk (pyStrip (collapseBlankLines (collapseRuns isHorizWs ' '
    (crToLf (htmlUnescape (stripTags (stripIntradeskTags
      (brToNewline (stripQuotes s.data)))))))))

/-- A Python value as it occurs in a decoded webhook payload. A string
carries, besides its text, the outcome of the two library operations the
code applies to strings: `jsonParse` is what `try_parse_json_maybe_escaped`'s
decode strategies produce for it (`none` when all three fail), and `intParse`
is what `int()` produces (`none` when it raises). JSON floats and booleans
inside status fields are not exercised by this repository's payloads; floats
are not modelled. -/
inductive PyVal where
  | none
  | bool (b : Bool)
  | int (n : Int)
  | str (text : String) (jsonParse : Option PyVal) (intParse : Option Int)
  | list (l : List PyVal)
  | dict (d : List (String × PyVal))

/-- A decoded webhook payload: a JSON object (Python dict, insertion
ordered, unique keys). -/
abbrev Payload := List (String × PyVal)

/-- Python truthiness for the values of `PyVal`. -/
def pyTruthy : PyVal → Bool
  | .none => false
  | .bool b => b
  | .int n => n != 0
  | .str t _ _ => t != ""
  | .list l => !l.isEmpty
  | .dict d => !d.isEmpty

/-- `dict.get(k)`: the value at the first (only) occurrence of `k`, `none`
when absent. -/
def pyGet (d : List (String × PyVal)) (k : String) : Option PyVal :=
  (d.find? (fun p => p.1 == k)).map (fun p => p.2)

/-- A Python `a or b or ...` chain over optional lookups whose last operand
is falsy (`None`, `{}` or `""`): the first truthy value, or `none`. -/
def firstTruthy : List (Option PyVal) → Option PyVal
  | [] => Option.none
  | v :: rest =>
    match v with
    | some x => if pyTruthy x then some x else firstTruthy rest
    | Option.none => firstTruthy rest

/-- Python's `str()` on a payload value. The `repr` of a list or dict is not
modelled (no repository code path feeds one to `str()` and then uses the
text's content). -/
def pyStr : PyVal → String
  | .none => "None"
  | .bool b => if b then "True" else "False"
  | .int n => toString n
  | .str t _ _ => t
  | .list _ => "<list>"
  | .dict _ => "<dict>"

/-- Python's `int()` coercion: succeeds on ints and booleans, on strings via
the string's recorded `int()` outcome, and raises (here `none`) on
everything else. -/
def pyInt : PyVal → Option Int
  | .int n => some n
  | .bool b => some (if b then 1 else 0)
  | .str _ _ ip => ip
  | _ => Option.none

/-- Whether a Python string's `.strip()` is truthy: it has a
non-whitespace character. -/
def stripTruthy (t : String) : Bool := t.data.any (fun c => !isPySpace c)

/-- `try_parse_json_maybe_escaped` (src/idk_webhook.py lines 337-354):
`None` stays `None`, a non-string is returned as it is, and a string is
decoded by `json.loads`, retried over `html.unescape` and
`unicode_escape` — modelled by the string's recorded decode outcome,
`none` when every strategy fails. -/
def try_parse_json_maybe_escaped : Option PyVal → Option PyVal
  | Option.none => Option.none
  | some v =>
    match v with
    | .str _ jp _ => jp
    | other => some other

/-- `fields = payload.get("Fields") or payload.get("fields") or {}` — the
entries of the Fields block. When the lookup lands on a truthy non-dict the
subsequent `fields.get` raises `AttributeError` (modelled as `.error`),
which propagates out of the webhook handler. -/
def fieldsOf (payload : Payload) : Except Unit (List (String × PyVal)) :=
  match firstTruthy [pyGet payload "Fields", pyGet payload "fields"] with
  | Option.none => .ok []
  | some (.dict d) => .ok d
  | some _ => .error ()

/-- The key probe of `pick_status`: `for k in ("Id", "id", "Value",
"value"): if k in parsed: try: return int(parsed[k]) except: pass`. -/
def probeIdKeys (d : List (String × PyVal)) : List String → Option Int
  | [] => Option.none
  | k :: rest =>
    match pyGet d k with
    | some v =>
      match pyInt v with
      | some n => some n
      | Option.none => probeIdKeys d rest
    | Option.none => probeIdKeys d rest

/-- `pick_status` (src/idk_webhook.py lines 407-422): locate
`Fields.status`/`Fields.Status`; when it is a string that decodes to a JSON
object, probe the `Id`/`id`/`Value`/`value` keys; otherwise fall back to
`int()` coercion, `None` on failure. `.error` is the `AttributeError` of a
truthy non-dict Fields block. -/
def pick_status (payload : Payload) : Except Unit (Option Int) :=
  match fieldsOf payload with
  | .error e => .error e
  | .ok fields =>
    match firstTruthy [pyGet fields "status", pyGet fields "Status"] with
    | some (.str _ jp ip) =>
      match jp with
      | some (.dict d) =>
        match probeIdKeys d ["Id", "id", "Value", "value"] with
        | some n => .ok (some n)
        | Option.none => .ok ip
      | _ => .ok ip
    | some v => .ok (pyInt v)
    | Option.none => .ok Option.none

/-- `str(ev.get(k1) or ev.get(k2) or "").lower()`: the lowered printed form
of the first truthy value under the given keys, `""` when none. -/
def blockNameOf (d : List (String × PyVal)) (keys : List String) : String :=
  match firstTruthy (keys.map (pyGet d)) with
  | some v => String.mk ((pyStr v).data.map pyLower)
  | Option.none => ""

/-- `extract_from_fields_events` (src/idk_webhook.py lines 357-371): decode
`Fields.Events`, and for each event object tagged as a `comment` block with
a non-blank string `NewValue`/`newValue`/`New`, yield the cleaned text. -/
def extract_from_fields_events (payload : Payload) : Except Unit (List String) := do
  let fields ← fieldsOf payload
  match firstTruthy [pyGet fields "Events", pyGet fields "events"] with
  | Option.none => return []
  | some e =>
    match try_parse_json_maybe_escaped (some e) with
    | some parsed =>
      if pyTruthy parsed then
        match parsed with
        | .list l =>
          return l.foldl (fun out ev =>
            match ev with
            | .dict d =>
              if blockNameOf d ["Block", "block"] == "comment" then
                match firstTruthy [pyGet d "NewValue", pyGet d "newValue", pyGet d "New"] with
                | some (.str t _ _) =>
                  if stripTruthy t then out ++ [clean_intradesk_html t] else out
                | _ => out
              else out
            | _ => out) []
        | _ => return []
      else return []
    | Option.none => return []

/-- One event of a lifetime entry (`extract_from_lifetime`'s inner loop):
`ev.get` raises on a non-dict event, aborting the pass. -/
def lifetimeEvent (out : List String) (ev : PyVal) : Except Unit (List String) :=
  match ev with
  | .dict evd =>
    if blockNameOf evd ["blockname", "Block"] == "comment" then
      match firstTruthy [pyGet evd "stringvalue", pyGet evd "stringValue",
          pyGet evd "NewValue"] with
      | some (.str t _ _) =>
        if stripTruthy t then .ok (out ++ [clean_intradesk_html t]) else .ok out
      | _ => .ok out
    else .ok out
  | _ => .error ()

/-- One entry of `lifetime.Data` (`extract_from_lifetime`'s outer loop):
`(entry.get("events") or {}).get("Data") or []`, iterating the events.
A non-dict entry, a truthy non-dict `events` value or a truthy non-list
`Data` value makes the Python iteration raise, aborting the pass. -/
def lifetimeEntry (out : List String) (entry : PyVal) : Except Unit (List String) :=
  match entry with
  | .dict ed =>
    match firstTruthy [pyGet ed "events"] with
    | Option.none => .ok out
    | some (.dict dd) =>
      match firstTruthy [pyGet dd "Data"] with
      | Option.none => .ok out
      | some (.list evs) => evs.foldlM lifetimeEvent out
      | some _ => .error ()
    | some _ => .error ()
  | _ => .error ()

/-- `extract_from_lifetime` (src/idk_webhook.py lines 374-388): decode
`Fields.lifetime`, walk `Data[*].events.Data[*]`, and yield the cleaned text
of each comment-tagged event. -/
def extract_from_lifetime (payload : Payload) : Except Unit (List String) := do
  let fields ← fieldsOf payload
  let lf := firstTruthy [pyGet fields "lifetime", pyGet fields "Lifetime"]
  match try_parse_json_maybe_escaped lf with
  | some parsed =>
    if pyTruthy parsed then
      match parsed with
      | .dict d =>
        match firstTruthy [pyGet d "Data"] with
        | Option.none => .ok []
        | some (.list entries) => entries.foldlM lifetimeEntry []
        | some _ => .error ()
      | _ => .ok []
    else .ok []
  | Option.none => .ok []

/-- Add one candidate text to the ordered, normalization-keyed map of
`collect_comment_candidates`: skipped when its soft normalization is empty
or already present (first seen wins). -/
def addCandidate (acc : List (String × String)) (t : String) : List (String × String) :=
  let k := _normalize_for_db (some t)
  if k = "" then acc
  else if acc.any (fun p => p.1 == k) then acc
  else acc ++ [(k, t)]

/-- `collect_comment_candidates` (src/idk_webhook.py lines 391-404): the
two structured extractors in order, then the flat fallback fields
`comment`/`message`/`engineer_text`/`text`, de-duplicated by soft
normalization with discovery order preserved. -/
def collect_comment_candidates (payload : Payload) : Except Unit (List String) := do
  let a ← extract_from_fields_events payload
  let b ← extract_from_lifetime payload
  let base := (a ++ b).foldl addCandidate []
  let withFallback := ["comment", "message", "engineer_text", "text"].foldl
    (fun acc k =>
      match pyGet payload k with
      | some (.str t _ _) =>
        if stripTruthy t then addCandidate acc (clean_intradesk_html t) else acc
      | _ => acc) base
  return withFallback.map (fun p => p.2)

/-- The ticket-id scan of the webhook handler (lines 467-471): the `str()`
of the first non-`None` value under
`ticket_id`/`taskId`/`Id`/`id`/`TicketId`. -/
def find_ticket_id (payload : Payload) : Option String :=
  ["ticket_id", "taskId", "Id", "id", "TicketId"].findSome? (fun k =>
    match pyGet payload k with
    | some v =>
      match v with
      | .none => Option.none
      | other => some (pyStr other)
    | Option.none => Option.none)

/-- `max(candidates, key=lambda x: len(x or ""))`: the first candidate of
maximal length, `none` on an empty list. -/
def pyMax (l : List String) : Option String :=
  l.foldl (fun acc x =>
    match acc with
    | Option.none => some x
    | some m => if x.length > m.length then some x else some m) Option.none

/-- One row of the `tickets` table, restricted to the columns the webhook
module reads or writes (`last_comment`, `last_engineer_comment` and
`last_notified_reminder` are untouched by src/idk_webhook.py and omitted).
`chat_id` is modelled non-null: every row the bot creates carries one, and
the handler would raise on `int(None)` otherwise. Timestamp columns hold the
opaque ISO strings the code writes. -/
structure TicketRow where
  task_number : Option String
  chat_id : Int
  user_id : Option Int
  message_id : Option Int
  last_user_message_id : Option Int
  last_updated : Option String
  status : Option Int
  notified_status : Option Int
  status_changed_at : Option String
  deriving DecidableEq

/-- The SQLite state the webhook touches: the `tickets` table as an
association list keyed by `ticket_id` (the primary key), and the
`user_comments` fingerprint table as a list of
(ticket_id, normalized text) pairs, unique as pairs. -/
structure DbState where
  tickets : List (String × TicketRow)
  user_comments : List (String × String)
  deriving DecidableEq

/-- `get_ticket_row` / any `SELECT ... WHERE ticket_id = ?` with
`fetchone()`: the first row under the key. -/
def lookupTicket (tid : String) (db : DbState) : Option TicketRow :=
  (db.tickets.find? (fun p => p.1 == tid)).map (fun p => p.2)

/-- An `UPDATE tickets SET ... WHERE ticket_id = ?`: apply `f` to every row
under the key (with the primary key, at most one). -/
def updateRow (tid : String) (f : TicketRow → TicketRow) (db : DbState) : DbState :=
  { db with tickets := db.tickets.map (fun p => if p.1 == tid then (p.1, f p.2) else p) }

/-- `clear_user_comments` (lines 122-124): delete every fingerprint of the
ticket. -/
def clear_user_comments (tid : String) (db : DbState) : DbState :=
  { db with user_comments := db.user_comments.filter (fun p => !(p.1 == tid)) }

/-- `save_user_comment_db` (lines 184-190): `INSERT OR IGNORE` of the
soft-normalized text (called by the bot side when the user comments; the
webhook pass itself never inserts fingerprints). -/
def save_user_comment_db (tid : String) (text : String) (db : DbState) : DbState :=
  let norm := _normalize_for_db (some text)
  if db.user_comments.any (fun p => p.1 == tid && p.2 == norm) then db
  else { db with user_comments := db.user_comments ++ [(tid, norm)] }

/-- The loop body of `user_comment_exists` (lines 163-179) on one stored
fingerprint `u`, given the candidate's soft and strict normalizations: skip
rows whose soft normalization is empty; then the exact-soft tier, the
substring tier (stored strict length ≥ 24, substring either way), and the
similarity tier (both soft lengths ≥ 24 and ratio ≥ 0.88). -/
def echoRow (simFn : String → String → Bool) (e_soft e_strict u : String) : Bool :=
  let u_soft := _normalize_for_db (some u)
  if u_soft = "" then false
  else
    let u_strict := _normalize_strict (some u_soft)
    (u_soft == e_soft) ||
    (24 ≤ u_strict.length &&
      (containsSub u_strict.data e_strict.data ||
       containsSub e_strict.data u_strict.data)) ||
    (24 ≤ u_soft.length && 24 ≤ e_soft.length && simFn u_soft e_soft)

/-- `user_comment_exists` (src/idk_webhook.py lines 145-181), the fuzzy echo
detector. `simFn u e` stands for `SequenceMatcher(None, u, e).ratio() >=
0.88`, the one observation the code makes of difflib; it is a parameter
because difflib's ratio is library code, not repository code. -/
def user_comment_exists (simFn : String → String → Bool) (tid text : String)
    (db : DbState) : Bool :=
  if text = "" then false
  else
    (db.user_comments.filter (fun p => p.1 == tid)).any (fun p =>
      echoRow simFn (_normalize_for_db (some text)) (_normalize_strict (some text)) p.2)

/-- `update_ticket_status` (src/idk_webhook.py lines 193-212): read the
stored status; report a change when the new status is present and differs;
write `status = COALESCE(new, status)` and `last_updated = now`
unconditionally. Returns `false` untouched when the row is missing. -/
def update_ticket_status (tid : String) (new : Option Int) (now : String)
    (db : DbState) : Bool × DbState :=
  match lookupTicket tid db with
  | Option.none => (false, db)
  | some row =>
    let changed := match new with
      | Option.none => false
      | some n => row.status ≠ some n
    (changed,
     updateRow tid (fun r =>
       { r with
         status := match new with
           | some n => some n
           | Option.none => r.status
         last_updated := some now }) db)

/-- `seen_event` (src/idk_webhook.py lines 428-437) over the module deque
`_seen_ids = deque(maxlen=5000)`: an empty or missing fingerprint is never
recorded; a known fingerprint answers `true`; an unknown one is appended,
evicting the oldest entry when the deque is full. -/
def seen_event (eid : Option String) (q : List String) : Bool × List String :=
  match eid with
  | Option.none => (false, q)
  | some e =>
    if e = "" then (false, q)
    else if e ∈ q then (true, q)
    else (false, if q.length = 5000 then q.tail ++ [e] else q ++ [e])

/-- `FINAL_STATUSES` (line 56). -/
def FINAL_STATUSES : List Int := [106950, 106949, 106946]

/-- `RATING_FINAL_STATUSES` (line 58). -/
def RATING_FINAL_STATUSES : List Int := [106950, 106946]

/-- `NOTIFY_STATUSES` is parsed from configuration (line 60-62, fallback
`{106948}`); the pass below takes the configured set as a parameter. -/
def DEFAULT_NOTIFY_STATUSES : List Int := [106948]

/-- `task_number or '—'` as rendered into the prompt texts. -/
def taskNumberDisp : Option String → String
  | some t => if t = "" then "—" else t
  | Option.none => "—"

/-- One outbound Telegram action of a reconciliation pass, in emission
order. A rating prompt records the arguments of `send_rating_prompt`. -/
inductive Effect where
  | forwardComment (chatId : Int) (text : String) (replyTo : Option Int)
  | notifyPrompt (chatId : Int) (text : String) (replyTo : Option Int)
  | ratingPrompt (chatId : Int) (ticketId : String) (taskNumber : Option String)
      (userId : Int) (replyTo : Option Int)
  deriving DecidableEq

def Effect.isNotify : Effect → Bool
  | .notifyPrompt _ _ _ => true
  | _ => false

def Effect.isRating : Effect → Bool
  | .ratingPrompt _ _ _ _ _ => true
  | _ => false

/-- How one webhook delivery ends: `badRequest` models the raised
`HTTPException(400)` for a missing ticket id, `ticketNotFound` the normal
404 JSON response for an unmanaged ticket, `internalError` an exception
escaping the extraction of a malformed payload, `ok` the 200 response. -/
inductive Outcome where
  | badRequest
  | ticketNotFound
  | internalError
  | ok
  deriving DecidableEq

/-- The observable result of one reconciliation pass: its outcome, the
database afterwards, and the emitted effects in order. -/
structure PassResult where
  outcome : Outcome
  db : DbState
  effects : List Effect
  deriving DecidableEq

/-- Step 2) of the handler (lines 501-522): on a transition into the
configured notify set, and unless `notified_status` already equals the new
status, emit the prompt and persist `notified_status` and
`status_changed_at`. The `notified_status` is re-read from the database
(after the status write), the chat binding comes from the row fetched at
the start of the pass. -/
def notifyStage (notifySet : List Int) (now : String) (tid : String)
    (row : TicketRow) (replyTo : Option Int) (status : Option Int)
    (changed : Bool) (db : DbState) : List Effect × DbState :=
  let inNotify := match status with
    | some s => notifySet.contains s
    | Option.none => false
  if changed && inNotify then
    match status, lookupTicket tid db with
    | some s, some row1 =>
      if row1.notified_status == some s then ([], db)
      else
        ([Effect.notifyPrompt row.chat_id
            ("Заявка #" ++ taskNumberDisp row.task_number ++
             " требует вашего ответа — добавьте комментарий или, если заявка уже не актуальна, мы её закроем!")
            replyTo],
         updateRow tid (fun r =>
           { r with notified_status := some s, status_changed_at := some now }) db)
    | _, _ => ([], db)
  else ([], db)

/-- Step 3) of the handler (lines 524-540): on a transition into
`RATING_FINAL_STATUSES`, and when the row's `user_id` is present and truthy,
attempt the rating prompt. `ratingMsgId` is the message id Telegram returns
(`none` when the send failed); only a successful send persists
`message_id`. -/
def ratingStage (ratingMsgId : Option Int) (tid : String) (row : TicketRow)
    (replyTo : Option Int) (status : Option Int) (changed : Bool)
    (db : DbState) : List Effect × DbState :=
  let inRating := match status with
    | some s => RATING_FINAL_STATUSES.contains s
    | Option.none => false
  if changed && inRating then
    match row.user_id with
    | some u =>
      if u != 0 then
        let eff := [Effect.ratingPrompt row.chat_id tid row.task_number u replyTo]
        match ratingMsgId with
        | some m => (eff, updateRow tid (fun r => { r with message_id := some m }) db)
        | Option.none => (eff, db)
      else ([], db)
    | Option.none => ([], db)
  else ([], db)

/-- The final fingerprint reset (lines 542-544): when the extracted status
is present and final, clear the ticket's fingerprints. -/
def clearStage (tid : String) (status : Option Int) (db : DbState) : DbState :=
  match status with
  | some s => if FINAL_STATUSES.contains s then clear_user_comments tid db else db
  | Option.none => db

/-- The body of the webhook handler once the ticket row is fetched (lines
480-546): collect candidates, choose the longest non-echo comment, extract
and store the status, then emit forward / notify / rating in order and clear
fingerprints on a final status. An extraction exception leaves the database
untouched (every write happens after both extractions). -/
def webhook_process (simFn : String → String → Bool) (notifySet : List Int)
    (now : String) (ratingMsgId : Option Int) (payload : Payload)
    (tid : String) (row : TicketRow) (db0 : DbState) : PassResult :=
  let last_uid : Int := match row.last_user_message_id with
    | some n => n
    | Option.none => 0
  let replyTo : Option Int := if last_uid > 0 then some last_uid else Option.none
  match collect_comment_candidates payload with
  | .error _ => ⟨.internalError, db0, []⟩
  | .ok candidates =>
    let chosen : Option String := match pyMax candidates with
      | Option.none => Option.none
      | some c => if user_comment_exists simFn tid c db0 then Option.none else some c
    match pick_status payload with
    | .error _ => ⟨.internalError, db0, []⟩
    | .ok status =>
      let (changed, db1) := update_ticket_status tid status now db0
      let effs1 : List Effect := match chosen with
        | some c => [Effect.forwardComment row.chat_id c replyTo]
        | Option.none => []
      let (effs2, db2) := notifyStage notifySet now tid row replyTo status changed db1
      let (effs3, db3) := ratingStage ratingMsgId tid row replyTo status changed db2
      ⟨.ok, clearStage tid status db3, effs1 ++ effs2 ++ effs3⟩

/-- One reconciliation pass of `idk_webhook` (src/idk_webhook.py lines
445-546), from the point where the payload is parsed and the delivery
de-duplicated: resolve the ticket id (missing → HTTP 400), fetch the row
(missing → the normal ticket-not-found outcome), then process. `now` is the
wall-clock ISO string the pass writes into timestamp columns. -/
def idk_webhook (simFn : String → String → Bool) (notifySet : List Int)
    (now : String) (ratingMsgId : Option Int) (payload : Payload)
    (db0 : DbState) : PassResult :=
  match find_ticket_id payload with
  | Option.none => ⟨.badRequest, db0, []⟩
  | some tid =>
    if tid = "" then ⟨.badRequest, db0, []⟩
    else
      match lookupTicket tid db0 with
      | Option.none => ⟨.ticketNotFound, db0, []⟩
      | some row => webhook_process simFn notifySet now ratingMsgId payload tid row db0

/-- The fingerprint rows of one ticket. -/
def fingerprintsOf (tid : String) (db : DbState) : List (String × String) :=
  db.user_comments.filter (fun p => p.1 == tid)

/-- Database states reachable from `db` through webhook passes alone (any
payloads, clocks, configured notify sets and Telegram outcomes). -/
inductive ReachableDb : DbState → DbState → Prop where
  | refl (db : DbState) : ReachableDb db db
  | step (db db1 : DbState) (simFn : String → String → Bool)
      (notifySet : List Int) (now : String) (ratingMsgId : Option Int)
      (payload : Payload) : ReachableDb db db1 →
      ReachableDb db (idk_webhook simFn notifySet now ratingMsgId payload db1).db

/-- The fingerprint hygiene invariant of the spec: every ticket whose stored
status is final has no stored user-comment fingerprints. -/
def FingerprintInv (db : DbState) : Prop :=
  ∀ tid row s, lookupTicket tid db = some row → row.status = some s →
    s ∈ FINAL_STATUSES → fingerprintsOf tid db = []

/-- The 59 case/pair mappings of `pyLower`: every character it changes,
with its image. -/
def pyLowerPairs : List (Char × Char) :=
  [('A', 'a'), ('B', 'b'), ('C', 'c'), ('D', 'd'), ('E', 'e'), ('F', 'f'),
   ('G', 'g'), ('H', 'h'), ('I', 'i'), ('J', 'j'), ('K', 'k'), ('L', 'l'),
   ('M', 'm'), ('N', 'n'), ('O', 'o'), ('P', 'p'), ('Q', 'q'), ('R', 'r'),
   ('S', 's'), ('T', 't'), ('U', 'u'), ('V', 'v'), ('W', 'w'), ('X', 'x'),
   ('Y', 'y'), ('Z', 'z'),
   ('А', 'а'), ('Б', 'б'), ('В', 'в'), ('Г', 'г'), ('Д', 'д'), ('Е', 'е'),
   ('Ж', 'ж'), ('З', 'з'), ('И', 'и'), ('Й', 'й'), ('К', 'к'), ('Л', 'л'),
   ('М', 'м'), ('Н', 'н'), ('О', 'о'), ('П', 'п'), ('Р', 'р'), ('С', 'с'),
   ('Т', 'т'), ('У', 'у'), ('Ф', 'ф'), ('Х', 'х'), ('Ц', 'ц'), ('Ч', 'ч'),
   ('Ш', 'ш'), ('Щ', 'щ'), ('Ъ', 'ъ'), ('Ы', 'ы'), ('Ь', 'ь'), ('Э', 'э'),
   ('Ю', 'ю'), ('Я', 'я'), ('Ё', 'ё')]

/-- A character list is in soft-normal form: no invisible characters, every
whitespace character is a plain space, no two adjacent whitespace
characters, no leading or trailing whitespace, and every character is fixed
by lower-casing. `softNormList` produces exactly such lists and is the
identity on them. -/
def SoftCanon (l : List Char) : Prop :=
  (∀ c ∈ l, isInvisible c = false) ∧
  (∀ c ∈ l, isPySpace c = true → c = ' ') ∧
  l.Chain' (fun a b => ¬(isPySpace a = true ∧ isPySpace b = true)) ∧
  (∀ c, l.head? = some c → isPySpace c = false) ∧
  (∀ c, l.getLast? = some c → isPySpace c = false) ∧
  (∀ c ∈ l, pyLower c = c)

/-! ## Theorems -/

/-- C8: the first `seen_event` call with a non-empty fingerprint answers
`false` and records it; a subsequent call with the same fingerprint answers
`true`; the backing store is a FIFO of fixed capacity 5000, whose oldest
entry is evicted when a new fingerprint arrives at capacity, after which the
evicted fingerprint is reported unseen again. -/
theorem seen_event_dedup_fifo (q t : List String) (e h : String)
    (he : e ≠ "") (hm : e ∉ q) :
    (seen_event (some e) q).1 = false ∧
    e ∈ (seen_event (some e) q).2 ∧
    (seen_event (some e) (seen_event (some e) q).2).1 = true ∧
    (q.length ≤ 5000 → (seen_event (some e) q).2.length ≤ 5000) ∧
    (q.length = 5000 → (seen_event (some e) q).2 = q.tail ++ [e]) ∧
    (q = h :: t → h ∉ t → h ≠ e → q.length = 5000 →
      (seen_event (some h) (seen_event (some e) q).2).1 = true → False) := by
  have hq : seen_event (some e) q =
      (false, if q.length = 5000 then q.tail ++ [e] else q ++ [e]) := by
    simp [seen_event, he, hm]
  rw [hq]
  have hmem : e ∈ (if q.length = 5000 then q.tail ++ [e] else q ++ [e]) := by
    split <;> simp
  refine ⟨rfl, hmem, ?_, ?_, ?_, ?_⟩
  · simp [seen_event, he, hmem]
  · intro hle
    split
    · rename_i h5000
      cases q with
      | nil => simp at h5000
      | cons a t2 =>
        simp only [List.length_append, List.length_cons, List.length_tail]
        simp at h5000 ⊢
        omega
    · rename_i hne
      simp only [List.length_append, List.length_singleton]
      omega
  · intro h5000
    simp [h5000]
  · intro hcons hnt hne h5000 habs
    subst hcons
    rw [if_pos h5000] at habs
    have hh : h ≠ "" := by
      intro hempty
      rw [hempty] at habs
      simp [seen_event] at habs
    simp only [List.tail_cons] at habs
    simp [seen_event, hh, hnt, hne] at habs

/-- Witness for C8 at a concrete full queue: the fingerprint `b` is unseen,
and after it evicts the oldest entry `a`, re-presenting `a` is not reported
as seen. -/
theorem seen_event_dedup_fifo_witness :
    (seen_event (some "a")
      ((seen_event (some "b") ("a" :: List.replicate 4999 "c")).2)).1 = false := by
  have h := (seen_event_dedup_fifo ("a" :: List.replicate 4999 "c")
      (List.replicate 4999 "c") "b" "a"
      (by decide)
      (by simp only [List.mem_cons, List.mem_replicate]; decide)).2.2.2.2.2
    rfl
    (by simp only [List.mem_replicate]; decide)
    (by decide)
    (by simp only [List.length_cons, List.length_replicate])
  rcases Bool.eq_false_or_eq_true
      (seen_event (some "a")
        ((seen_event (some "b") ("a" :: List.replicate 4999 "c")).2)).1 with hb | hb
  · exact absurd hb h
  · exact hb

set_option maxHeartbeats 1000000 in
theorem pyLower_spec (c : Char) : pyLower c = c ∨ (c, pyLower c) ∈ pyLowerPairs := by
  rw [pyLower.eq_def]
  split
  all_goals first
  | (left; rfl)
  | decide

set_option maxHeartbeats 1000000 in
theorem pyLowerPairs_lower (a b : Char) (h : (a, b) ∈ pyLowerPairs) :
    pyLower b = b := by
  fin_cases h <;> decide

set_option maxHeartbeats 1000000 in
theorem pyLowerPairs_space (a b : Char) (h : (a, b) ∈ pyLowerPairs) :
    isPySpace a = false ∧ isPySpace b = false := by
  fin_cases h <;> decide

set_option maxHeartbeats 1000000 in
theorem pyLowerPairs_invisible (a b : Char) (h : (a, b) ∈ pyLowerPairs) :
    isInvisible a = false ∧ isInvisible b = false := by
  fin_cases h <;> decide

theorem pyLower_pyLower (c : Char) : pyLower (pyLower c) = pyLower c := by
  rcases pyLower_spec c with h | h
  · rw [h, h]
  · exact pyLowerPairs_lower c (pyLower c) h

theorem isPySpace_pyLower (c : Char) : isPySpace (pyLower c) = isPySpace c := by
  rcases pyLower_spec c with h | h
  · rw [h]
  · have h2 := pyLowerPairs_space c (pyLower c) h
    rw [h2.1, h2.2]

theorem isInvisible_pyLower (c : Char) : isInvisible (pyLower c) = isInvisible c := by
  rcases pyLower_spec c with h | h
  · rw [h]
  · have h2 := pyLowerPairs_invisible c (pyLower c) h
    rw [h2.1, h2.2]

theorem crToLf_mem (l : List Char) : ∀ c ∈ crToLf l, c ∈ l ∨ c = '\n' := by
  induction l using crToLf.induct with
  | case1 => intro c hc; simp [crToLf] at hc
  | case2 rest ih =>
    intro c hc
    rw [crToLf.eq_2] at hc
    rcases List.mem_cons.mp hc with h | h
    · exact Or.inr h
    · rcases ih c h with h2 | h2
      · exact Or.inl (by simp [h2])
      · exact Or.inr h2
  | case3 rest h0 ih =>
    intro c hc
    rw [crToLf.eq_3 rest h0] at hc
    rcases List.mem_cons.mp hc with h | h
    · exact Or.inr h
    · rcases ih c h with h2 | h2
      · exact Or.inl (List.mem_cons_of_mem _ h2)
      · exact Or.inr h2
  | case4 c rest h1 h2 ih =>
    intro d hd
    rw [crToLf.eq_4 c rest h1 h2] at hd
    rcases List.mem_cons.mp hd with h | h
    · exact Or.inl (by simp [h])
    · rcases ih d h with h3 | h3
      · exact Or.inl (List.mem_cons_of_mem _ h3)
      · exact Or.inr h3

theorem crToLf_eq_self (l : List Char) (h : ∀ c ∈ l, c ≠ '\r') : crToLf l = l := by
  induction l using crToLf.induct with
  | case1 => rfl
  | case2 rest ih => exact absurd rfl (h '\r' (by simp))
  | case3 rest h0 ih => exact absurd rfl (h '\r' (by simp))
  | case4 c rest h1 h2 ih =>
    rw [crToLf.eq_4 c rest h1 h2, ih (fun d hd => h d (List.mem_cons_of_mem _ hd))]

theorem collapseRuns_mem (p : Char → Bool) (r : Char) (l : List Char) :
    ∀ c ∈ collapseRuns p r l, c ∈ l ∨ c = r := by
  induction l using collapseRuns.induct p r with
  | case1 => intro c hc; simp [collapseRuns] at hc
  | case2 a =>
    intro c hc
    rw [collapseRuns.eq_2] at hc
    rcases List.mem_singleton.mp hc with h
    subst h
    split
    · exact Or.inr rfl
    · exact Or.inl (by simp)
  | case3 a b rest hab ih =>
    intro c hc
    rw [collapseRuns.eq_3, if_pos hab] at hc
    rcases ih c hc with h | h
    · exact Or.inl (List.mem_cons_of_mem _ h)
    · exact Or.inr h
  | case4 a b rest hab ih =>
    intro c hc
    rw [collapseRuns.eq_3, if_neg hab] at hc
    rcases List.mem_cons.mp hc with h | h
    · subst h
      split
      · exact Or.inr rfl
      · exact Or.inl (by simp)
    · rcases ih c h with h2 | h2
      · exact Or.inl (List.mem_cons_of_mem _ h2)
      · exact Or.inr h2

theorem collapseRuns_vals (p : Char → Bool) (r : Char) (l : List Char) :
    ∀ c ∈ collapseRuns p r l, p c = true → c = r := by
  induction l using collapseRuns.induct p r with
  | case1 => intro c hc; simp [collapseRuns] at hc
  | case2 a =>
    intro c hc hpc
    rw [collapseRuns.eq_2] at hc
    by_cases hpa : p a = true
    · rw [if_pos hpa] at hc
      exact List.mem_singleton.mp hc
    · rw [if_neg hpa] at hc
      rw [List.mem_singleton.mp hc] at hpc
      exact absurd hpc hpa
  | case3 a b rest hab ih =>
    intro c hc
    rw [collapseRuns.eq_3, if_pos hab] at hc
    exact ih c hc
  | case4 a b rest hab ih =>
    intro c hc hpc
    rw [collapseRuns.eq_3, if_neg hab] at hc
    rcases List.mem_cons.mp hc with h | h
    · by_cases hpa : p a = true
      · rw [if_pos hpa] at h
        exact h
      · rw [if_neg hpa] at h
        rw [h] at hpc
        exact absurd hpc hpa
    · exact ih c h hpc

theorem collapseRuns_head (p : Char → Bool) (r : Char) (hr : p r = true) :
    ∀ (l : List Char) (a : Char), ∃ c t, collapseRuns p r (a :: l) = c :: t ∧
      p c = p a := by
  intro l
  induction l with
  | nil =>
    intro a
    refine ⟨if p a then r else a, [], rfl, ?_⟩
    split <;> simp_all
  | cons b rest ih =>
    intro a
    rw [collapseRuns.eq_3]
    by_cases hab : (p a && p b) = true
    · rw [if_pos hab]
      obtain ⟨c, t, hct, hpc⟩ := ih b
      simp only [Bool.and_eq_true] at hab
      exact ⟨c, t, hct, by rw [hpc, hab.1, hab.2]⟩
    · rw [if_neg hab]
      refine ⟨_, _, rfl, ?_⟩
      split <;> simp_all

theorem collapseRuns_chain (p : Char → Bool) (r : Char) (hr : p r = true)
    (l : List Char) :
    (collapseRuns p r l).Chain' (fun a b => ¬(p a = true ∧ p b = true)) := by
  induction l using collapseRuns.induct p r with
  | case1 => simp [collapseRuns]
  | case2 a => rw [collapseRuns.eq_2]; simp
  | case3 a b rest hab ih => rw [collapseRuns.eq_3, if_pos hab]; exact ih
  | case4 a b rest hab ih =>
    rw [collapseRuns.eq_3, if_neg hab]
    obtain ⟨c, t, hct, hpc⟩ := collapseRuns_head p r hr rest b
    rw [hct] at ih ⊢
    refine List.chain'_cons.mpr ⟨?_, ih⟩
    have hpx : p (if p a = true then r else a) = p a := by split <;> simp_all
    intro hcontra
    rw [hpx] at hcontra
    rw [hpc] at hcontra
    simp [hcontra.1, hcontra.2] at hab

theorem collapseRuns_id (p : Char → Bool) (r : Char) (l : List Char)
    (hv : ∀ c ∈ l, p c = true → c = r)
    (hch : l.Chain' (fun a b => ¬(p a = true ∧ p b = true))) :
    collapseRuns p r l = l := by
  induction l using collapseRuns.induct p r with
  | case1 => rfl
  | case2 a =>
    rw [collapseRuns.eq_2]
    split
    · rename_i hpa
      rw [(hv a (by simp) hpa).symm]
    · rfl
  | case3 a b rest hab ih =>
    exfalso
    simp only [Bool.and_eq_true] at hab
    exact (List.chain'_cons.mp hch).1 ⟨hab.1, hab.2⟩
  | case4 a b rest hab ih =>
    rw [collapseRuns.eq_3, if_neg hab]
    have hx : (if p a = true then r else a) = a := by
      split
      · rename_i hpa
        exact (hv a (by simp) hpa).symm
      · rfl
    rw [hx, ih (fun c hc hpc => hv c (List.mem_cons_of_mem _ hc) hpc)
      (List.chain'_cons.mp hch).2]

theorem head?_dropWhile_false (p : Char → Bool) (l : List Char) (c : Char)
    (h : (l.dropWhile p).head? = some c) : p c = false := by
  have h2 := List.head?_dropWhile_not p l
  rw [h] at h2
  exact h2

theorem getLast?_dropWhile_of_ne_nil (p : Char → Bool) (l : List Char)
    (h : l.dropWhile p ≠ []) : (l.dropWhile p).getLast? = l.getLast? := by
  induction l with
  | nil => simp at h
  | cons a t ih =>
    rw [List.dropWhile_cons]
    rw [List.dropWhile_cons] at h
    split
    · rename_i hpa
      rw [if_pos hpa] at h
      rw [ih h]
      have ht : t ≠ [] := by
        intro he
        rw [he] at h
        simp at h
      cases t with
      | nil => exact absurd rfl ht
      | cons b t2 => rw [List.getLast?_cons_cons]
    · rfl

theorem pyStrip_subset (l : List Char) : ∀ c ∈ pyStrip l, c ∈ l := by
  intro c hc
  unfold pyStrip at hc
  rw [List.mem_reverse] at hc
  have h1 := (List.dropWhile_suffix (l := (l.dropWhile isPySpace).reverse)
    isPySpace).subset hc
  rw [List.mem_reverse] at h1
  exact (List.dropWhile_suffix isPySpace).subset h1

theorem pyStrip_chain (R : Char → Char → Prop) (hsym : ∀ a b, R a b → R b a)
    (l : List Char) (h : l.Chain' R) : (pyStrip l).Chain' R := by
  unfold pyStrip
  have h1 : (l.dropWhile isPySpace).Chain' R := h.suffix (List.dropWhile_suffix _)
  have h2 : ((l.dropWhile isPySpace).reverse).Chain' R :=
    List.chain'_reverse.mpr (h1.imp (fun a b hab => hsym a b hab))
  have h3 : ((l.dropWhile isPySpace).reverse.dropWhile isPySpace).Chain' R :=
    h2.suffix (List.dropWhile_suffix _)
  exact List.chain'_reverse.mpr (h3.imp (fun a b hab => hsym a b hab))

theorem pyStrip_head (l : List Char) (c : Char) (h : (pyStrip l).head? = some c) :
    isPySpace c = false := by
  unfold pyStrip at h
  rw [List.head?_reverse] at h
  have hne : ((l.dropWhile isPySpace).reverse.dropWhile isPySpace) ≠ [] := by
    intro he
    rw [he] at h
    simp at h
  rw [getLast?_dropWhile_of_ne_nil _ _ hne, List.getLast?_reverse] at h
  exact head?_dropWhile_false _ _ _ h

theorem pyStrip_last (l : List Char) (c : Char) (h : (pyStrip l).getLast? = some c) :
    isPySpace c = false := by
  unfold pyStrip at h
  rw [List.getLast?_reverse] at h
  exact head?_dropWhile_false _ _ _ h

theorem pyStrip_id (l : List Char)
    (hh : ∀ c, l.head? = some c → isPySpace c = false)
    (hl : ∀ c, l.getLast? = some c → isPySpace c = false) : pyStrip l = l := by
  unfold pyStrip
  have h1 : l.dropWhile isPySpace = l := by
    cases l with
    | nil => rfl
    | cons a t =>
      rw [List.dropWhile_cons, if_neg (by rw [hh a rfl]; simp)]
  rw [h1]
  have h2 : l.reverse.dropWhile isPySpace = l.reverse := by
    cases hr : l.reverse with
    | nil => rfl
    | cons a t =>
      have hla : l.getLast? = some a := by
        rw [← List.head?_reverse, hr]
        rfl
      rw [List.dropWhile_cons, if_neg (by rw [hl a hla]; simp)]
  rw [h2, List.reverse_reverse]

theorem softCanon_softNormList (l : List Char) : SoftCanon (softNormList l) := by
  unfold softNormList SoftCanon
  refine ⟨?_, ?_, ?_, ?_, ?_, ?_⟩
  · intro c hc
    rw [List.mem_map] at hc
    obtain ⟨d, hd, rfl⟩ := hc
    rw [isInvisible_pyLower]
    have hdC := pyStrip_subset _ d hd
    rcases collapseRuns_mem _ _ _ d hdC with h2 | h2
    · rcases crToLf_mem _ d h2 with h3 | h3
      · simpa using (List.mem_filter.mp h3).2
      · rw [h3]; decide
    · rw [h2]; decide
  · intro c hc hsp
    rw [List.mem_map] at hc
    obtain ⟨d, hd, rfl⟩ := hc
    rw [isPySpace_pyLower] at hsp
    have hdC := pyStrip_subset _ d hd
    rw [collapseRuns_vals isPySpace ' ' _ d hdC hsp]
    decide
  · have hCchain := collapseRuns_chain isPySpace ' ' (by decide)
      (crToLf (l.filter (fun c => !isInvisible c)))
    have hDchain := pyStrip_chain _
      (fun a b hab hba => hab ⟨hba.2, hba.1⟩) _ hCchain
    rw [List.chain'_map]
    exact hDchain.imp (fun a b hab => by
      rw [isPySpace_pyLower, isPySpace_pyLower]; exact hab)
  · intro c hc
    rw [List.head?_map] at hc
    cases hDh : (pyStrip (collapseRuns isPySpace ' '
        (crToLf (l.filter (fun c => !isInvisible c))))).head? with
    | none => rw [hDh] at hc; simp at hc
    | some d =>
      rw [hDh] at hc
      simp only [Option.map_some'] at hc
      cases hc
      rw [isPySpace_pyLower]
      exact pyStrip_head _ d hDh
  · intro c hc
    rw [List.getLast?_map] at hc
    cases hDh : (pyStrip (collapseRuns isPySpace ' '
        (crToLf (l.filter (fun c => !isInvisible c))))).getLast? with
    | none => rw [hDh] at hc; simp at hc
    | some d =>
      rw [hDh] at hc
      simp only [Option.map_some'] at hc
      cases hc
      rw [isPySpace_pyLower]
      exact pyStrip_last _ d hDh
  · intro c hc
    rw [List.mem_map] at hc
    obtain ⟨d, hd, rfl⟩ := hc
    exact pyLower_pyLower d

theorem softNormList_canon_id (l : List Char) (h : SoftCanon l) :
    softNormList l = l := by
  obtain ⟨hinv, hsp, hch, hh, hl, hlow⟩ := h
  unfold softNormList
  have hnocr : ∀ c ∈ l, c ≠ '\r' := by
    intro c hc hcr
    subst hcr
    have h2 := hsp '\r' hc (by decide)
    exact absurd h2 (by decide)
  rw [List.filter_eq_self.mpr (fun a ha => by rw [hinv a ha]; rfl)]
  rw [crToLf_eq_self l hnocr]
  rw [collapseRuns_id isPySpace ' ' l (fun c hc hpc => hsp c hc hpc) hch]
  rw [pyStrip_id l hh hl]
  have : l.map pyLower = l.map (fun c => c) := List.map_congr_left hlow
  rw [this]
  exact List.map_id' l

theorem softNormList_idem (l : List Char) :
    softNormList (softNormList l) = softNormList l :=
  softNormList_canon_id _ (softCanon_softNormList l)

theorem normalize_for_db_eq (s : String) :
    _normalize_for_db (some s) = String.mk (softNormList s.data) := by
  show (if s = "" then "" else String.mk (softNormList s.data)) = _
  split
  · rename_i hs
    subst hs
    rfl
  · rfl

theorem normalize_for_db_idem_str (s : String) :
    _normalize_for_db (some (_normalize_for_db (some s))) =
    _normalize_for_db (some s) := by
  rw [normalize_for_db_eq s, normalize_for_db_eq (String.mk (softNormList s.data))]
  show String.mk (softNormList (softNormList s.data)) = _
  rw [softNormList_idem]

theorem normalize_strict_soft (u : String) :
    _normalize_strict (some (_normalize_for_db (some u))) =
    _normalize_strict (some u) := by
  unfold _normalize_strict
  rw [normalize_for_db_idem_str u]

/-- C9: soft normalization is idempotent — `_normalize_for_db` applied twice
equals it applied once — and consequently, since `save_user_comment_db`
stores fingerprints already soft-normalized and `user_comment_exists`
soft-normalizes stored rows again before comparing, the exact-equality echo
tier compares a candidate against a stored fingerprint exactly as it would
against the original user text. -/
theorem soft_normalization_idempotent :
    (∀ s : Option String,
      _normalize_for_db (some (_normalize_for_db s)) = _normalize_for_db s) ∧
    (∀ stored cand : String,
      (_normalize_for_db (some cand) ==
        _normalize_for_db (some (_normalize_for_db (some stored)))) =
      (_normalize_for_db (some cand) == _normalize_for_db (some stored))) := by
  constructor
  · intro s
    match s with
    | Option.none => rfl
    | some s => exact normalize_for_db_idem_str s
  · intro stored cand
    rw [normalize_for_db_idem_str stored]

theorem echoRow_iff (simFn : String → String → Bool) (e u : String) :
    echoRow simFn (_normalize_for_db (some e)) (_normalize_strict (some e)) u = true ↔
      _normalize_for_db (some u) ≠ "" ∧
      (_normalize_for_db (some u) = _normalize_for_db (some e) ∨
       (24 ≤ (_normalize_strict (some u)).length ∧
         (containsSub (_normalize_strict (some u)).data
            (_normalize_strict (some e)).data = true ∨
          containsSub (_normalize_strict (some e)).data
            (_normalize_strict (some u)).data = true)) ∨
       (24 ≤ (_normalize_for_db (some u)).length ∧
        24 ≤ (_normalize_for_db (some e)).length ∧
        simFn (_normalize_for_db (some u)) (_normalize_for_db (some e)) = true)) := by
  unfold echoRow
  by_cases hu : _normalize_for_db (some u) = ""
  · simp [hu]
  · rw [if_neg hu]
    rw [normalize_strict_soft u]
    simp only [Bool.or_eq_true, Bool.and_eq_true, decide_eq_true_eq, beq_iff_eq]
    tauto

/-- C3 (amended): `user_comment_exists` classifies a candidate as an echo
exactly when some stored fingerprint of the ticket with non-empty soft
normalization matches it by one of the three tiers; the substring tier
requires only the STORED fingerprint's strict normalization to reach length
24 (with one strict string a substring of the other) — the candidate's
strict length is not checked, so a candidate far shorter than 24 characters
is classified as an echo by this tier whenever it occurs inside a long
stored fingerprint. -/
theorem user_comment_exists_iff (simFn : String → String → Bool)
    (tid e : String) (db : DbState) :
    user_comment_exists simFn tid e db = true ↔
      e ≠ "" ∧ ∃ u, (tid, u) ∈ db.user_comments ∧
        _normalize_for_db (some u) ≠ "" ∧
        (_normalize_for_db (some u) = _normalize_for_db (some e) ∨
         (24 ≤ (_normalize_strict (some u)).length ∧
           (containsSub (_normalize_strict (some u)).data
              (_normalize_strict (some e)).data = true ∨
            containsSub (_normalize_strict (some e)).data
              (_normalize_strict (some u)).data = true)) ∨
         (24 ≤ (_normalize_for_db (some u)).length ∧
          24 ≤ (_normalize_for_db (some e)).length ∧
          simFn (_normalize_for_db (some u)) (_normalize_for_db (some e)) = true)) := by
  unfold user_comment_exists
  by_cases he : e = ""
  · simp [he]
  · rw [if_neg he, List.any_eq_true]
    constructor
    · rintro ⟨p, hp, hcond⟩
      obtain ⟨hmem, hkey⟩ := List.mem_filter.mp hp
      have hk : p.1 = tid := by simpa using hkey
      have hcond2 := (echoRow_iff simFn e p.2).mp hcond
      refine ⟨he, p.2, ?_, hcond2.1, hcond2.2⟩
      rw [← hk]
      exact Prod.mk.eta ▸ hmem
    · rintro ⟨_, u, hmem, hne, hcase⟩
      exact ⟨(tid, u), List.mem_filter.mpr ⟨hmem, by simp⟩,
        (echoRow_iff simFn e u).mpr ⟨hne, hcase⟩⟩

/-- Counterexample to C3 as stated: against the stored fingerprint
`abcdefghijklmnopqrstuvwxyz` (strict length 26), the candidate `abcde` —
strict length 5, well under 24, not soft-equal to the stored text, and with
the similarity tier closed by its length gate — is nevertheless classified
as an echo, through the substring tier. -/
theorem substring_tier_counterexample :
    user_comment_exists (fun _ _ => false) "T" "abcde"
      ⟨[], [("T", "abcdefghijklmnopqrstuvwxyz")]⟩ = true ∧
    (_normalize_strict (some "abcde")).length = 5 ∧
    _normalize_for_db (some "abcde") ≠
      _normalize_for_db (some "abcdefghijklmnopqrstuvwxyz") := by
  refine ⟨?_, ?_, ?_⟩ <;> decide

/-- Counterexample to C1 as stated: a `Fields.status` value that is an
already-decoded JSON object carrying `Id: 106946` resolves to absent rather
than to 106946 (`pick_status` probes id keys only behind
`isinstance(status_block, str)`, and `int()` of a dict raises into the
`except` arm); moreover a payload whose `Fields` block is a truthy
non-object makes `pick_status` raise `AttributeError` rather than return
absent. -/
theorem pick_status_counterexample :
    pick_status [("Fields", PyVal.dict [("status",
        PyVal.dict [("Id", PyVal.int 106946)])])] = .ok Option.none ∧
    (Except.ok Option.none : Except Unit (Option Int)) ≠ .ok (some 106946) ∧
    pick_status [("Fields", PyVal.str "x" Option.none Option.none)] = .error () := by
  refine ⟨rfl, ?_, rfl⟩
  intro h
  simp at h

/-- C1 (amended): when the `Fields` block is an object (or absent),
`pick_status` never raises and resolves, in order: a bare integer status to
itself; a string status that does not decode to a JSON object to its
`int()` value; a string status that decodes to a JSON object to the first
`int()`-convertible value under the key spellings `Id`/`id`/`Value`/`value`;
a status field that is an already-decoded JSON object to absent; in
particular the string-encoded status block carrying `Id: 106946` resolves to
the status code 106946. -/
theorem pick_status_amended :
    (∀ (payload : Payload) (fields : List (String × PyVal)) (n : Int),
      fieldsOf payload = .ok fields →
      firstTruthy [pyGet fields "status", pyGet fields "Status"] =
        some (.int n) →
      pick_status payload = .ok (some n)) ∧
    (∀ (payload : Payload) (fields : List (String × PyVal)) (t : String)
        (jp : Option PyVal) (n : Int),
      fieldsOf payload = .ok fields →
      firstTruthy [pyGet fields "status", pyGet fields "Status"] =
        some (.str t jp (some n)) →
      (∀ d, jp ≠ some (.dict d)) →
      pick_status payload = .ok (some n)) ∧
    (∀ (payload : Payload) (fields : List (String × PyVal)) (t : String)
        (ip : Option Int) (d : List (String × PyVal)) (n : Int),
      fieldsOf payload = .ok fields →
      firstTruthy [pyGet fields "status", pyGet fields "Status"] =
        some (.str t (some (.dict d)) ip) →
      probeIdKeys d ["Id", "id", "Value", "value"] = some n →
      pick_status payload = .ok (some n)) ∧
    (∀ (payload : Payload) (fields : List (String × PyVal))
        (d : List (String × PyVal)),
      fieldsOf payload = .ok fields →
      firstTruthy [pyGet fields "status", pyGet fields "Status"] =
        some (.dict d) →
      pick_status payload = .ok Option.none) ∧
    (pick_status [("Fields", PyVal.dict [("status",
        PyVal.str "x" (some (PyVal.dict [("Id", PyVal.int 106946)]))
          Option.none)])] = .ok (some 106946)) := by
  refine ⟨?_, ?_, ?_, ?_, rfl⟩
  · intro payload fields n hf hs
    unfold pick_status
    rw [hf]
    simp only [hs]
    rfl
  · intro payload fields t jp n hf hs hjp
    unfold pick_status
    rw [hf]
    match jp, hs with
    | Option.none, hs => simp only [hs]
    | some .none, hs => simp only [hs]
    | some (.int m), hs => simp only [hs]
    | some (.bool b), hs => simp only [hs]
    | some (.str t2 jp2 ip2), hs => simp only [hs]
    | some (.list l2), hs => simp only [hs]
    | some (.dict d2), hs => exact absurd rfl (hjp d2)
  · intro payload fields t ip d n hf hs hprobe
    unfold pick_status
    rw [hf]
    simp only [hs, hprobe]
  · intro payload fields d hf hs
    unfold pick_status
    rw [hf]
    simp only [hs]
    rfl

theorem dbstate_ext (a b : DbState) (h1 : a.tickets = b.tickets)
    (h2 : a.user_comments = b.user_comments) : a = b := by
  cases a
  cases b
  simp_all

theorem find?_map_assoc (tid : String) (f : TicketRow → TicketRow)
    (l : List (String × TicketRow)) :
    (l.map (fun p => if p.1 == tid then (p.1, f p.2) else p)).find?
        (fun p => p.1 == tid) =
      (l.find? (fun p => p.1 == tid)).map (fun p => (p.1, f p.2)) := by
  induction l with
  | nil => rfl
  | cons p rest ih =>
    simp only [List.map_cons]
    by_cases hp : (p.1 == tid) = true
    · rw [if_pos hp]
      rw [List.find?_cons_of_pos (p := fun (q : String × TicketRow) => q.1 == tid)
        (a := (p.1, f p.2)) _ hp]
      rw [List.find?_cons_of_pos (p := fun (q : String × TicketRow) => q.1 == tid)
        (a := p) _ hp]
      rfl
    · rw [if_neg hp]
      rw [List.find?_cons_of_neg (p := fun (q : String × TicketRow) => q.1 == tid)
        (a := p) _ hp]
      rw [List.find?_cons_of_neg (p := fun (q : String × TicketRow) => q.1 == tid)
        (a := p) _ hp]
      exact ih

theorem lookupTicket_updateRow (tid : String) (f : TicketRow → TicketRow)
    (db : DbState) :
    lookupTicket tid (updateRow tid f db) = (lookupTicket tid db).map f := by
  unfold lookupTicket updateRow
  rw [find?_map_assoc]
  cases db.tickets.find? (fun p => p.1 == tid) <;> rfl

theorem lookupTicket_updateRow_ne (tid tid2 : String) (hne : tid2 ≠ tid)
    (f : TicketRow → TicketRow) (db : DbState) :
    lookupTicket tid2 (updateRow tid f db) = lookupTicket tid2 db := by
  unfold lookupTicket updateRow
  congr 1
  induction db.tickets with
  | nil => rfl
  | cons p rest ih =>
    simp only [List.map_cons]
    by_cases hp : (p.1 == tid) = true
    · have hp2 : ¬((p.1 == tid2) = true) := by
        simp only [beq_iff_eq] at hp ⊢
        rw [hp]
        exact fun h => hne h.symm
      rw [if_pos hp]
      rw [List.find?_cons_of_neg (p := fun (q : String × TicketRow) => q.1 == tid2)
        (a := (p.1, f p.2)) _ hp2]
      rw [List.find?_cons_of_neg (p := fun (q : String × TicketRow) => q.1 == tid2)
        (a := p) _ hp2]
      exact ih
    · rw [if_neg hp]
      by_cases hp2 : (p.1 == tid2) = true
      · rw [List.find?_cons_of_pos (p := fun (q : String × TicketRow) => q.1 == tid2)
          (a := p) _ hp2]
        rw [List.find?_cons_of_pos (p := fun (q : String × TicketRow) => q.1 == tid2)
          (a := p) _ hp2]
      · rw [List.find?_cons_of_neg (p := fun (q : String × TicketRow) => q.1 == tid2)
          (a := p) _ hp2]
        rw [List.find?_cons_of_neg (p := fun (q : String × TicketRow) => q.1 == tid2)
          (a := p) _ hp2]
        exact ih

theorem updateRow_comp (tid : String) (f g : TicketRow → TicketRow)
    (db : DbState) :
    updateRow tid g (updateRow tid f db) =
      updateRow tid (fun r => g (f r)) db := by
  unfold updateRow
  refine dbstate_ext _ _ ?_ rfl
  show (db.tickets.map _).map _ = db.tickets.map _
  rw [List.map_map]
  apply List.map_congr_left
  intro p _
  by_cases h : (p.1 == tid) = true
  · simp [Function.comp, h]
  · simp [Function.comp, h]

theorem updateRow_id_of (tid : String) (f : TicketRow → TicketRow)
    (db : DbState) (h : ∀ p ∈ db.tickets, p.1 = tid → f p.2 = p.2) :
    updateRow tid f db = db := by
  unfold updateRow
  refine dbstate_ext _ _ ?_ rfl
  simp only
  have : db.tickets.map (fun p => if p.1 == tid then (p.1, f p.2) else p) =
      db.tickets.map (fun p => p) := by
    apply List.map_congr_left
    intro p hp
    by_cases hk : p.1 == tid
    · rw [if_pos hk]
      rw [h p hp (by simpa using hk)]
    · rw [if_neg hk]
  rw [this, List.map_id']

theorem updateRow_forall (tid : String) (f : TicketRow → TicketRow)
    (P : TicketRow → Prop) (db : DbState)
    (h : ∀ q ∈ db.tickets, q.1 = tid → P (f q.2)) :
    ∀ p ∈ (updateRow tid f db).tickets, p.1 = tid → P p.2 := by
  intro p hp hkey
  unfold updateRow at hp
  simp only [List.mem_map] at hp
  obtain ⟨q, hq, hpe⟩ := hp
  by_cases hk : q.1 == tid
  · rw [if_pos hk] at hpe
    rw [← hpe]
    exact h q hq (by simpa using hk)
  · rw [if_neg hk] at hpe
    rw [← hpe] at hkey
    exact absurd (by simpa using hkey) hk

theorem notifyStage_changed_false (notifySet : List Int) (now tid : String)
    (row : TicketRow) (rto : Option Int) (status : Option Int) (db : DbState) :
    notifyStage notifySet now tid row rto status false db = ([], db) := by
  unfold notifyStage
  simp

theorem ratingStage_changed_false (rmid : Option Int) (tid : String)
    (row : TicketRow) (rto : Option Int) (status : Option Int) (db : DbState) :
    ratingStage rmid tid row rto status false db = ([], db) := by
  unfold ratingStage
  simp

theorem notifyStage_db_cases (notifySet : List Int) (now tid : String)
    (row : TicketRow) (rto : Option Int) (status : Option Int) (changed : Bool)
    (db : DbState) :
    (notifyStage notifySet now tid row rto status changed db).2 = db ∨
    ∃ s : Int, status = some s ∧
      (notifyStage notifySet now tid row rto status changed db).2 =
        updateRow tid (fun r =>
          { r with notified_status := some s, status_changed_at := some now }) db := by
  rcases status with _ | s
  · left
    unfold notifyStage
    simp
  · unfold notifyStage
    by_cases hc : (changed && notifySet.contains s) = true
    · simp only [Bool.and_eq_true] at hc
      have hmem : s ∈ notifySet := by
        have h2 := hc.2
        simpa using h2
      rcases hlk : lookupTicket tid db with _ | row1
      · left
        simp [hc.1, hmem, hlk]
      · by_cases hn : (row1.notified_status == some s) = true
        · left
          simp [hc.1, hmem, hlk, hn]
        · right
          refine ⟨s, rfl, ?_⟩
          simp [hc.1, hmem, hlk, hn]
    · left
      have hc2 : ¬(changed = true ∧ s ∈ notifySet) := by simpa using hc
      simp [hc2]

theorem ratingStage_db_cases (rmid : Option Int) (tid : String)
    (row : TicketRow) (rto : Option Int) (status : Option Int) (changed : Bool)
    (db : DbState) :
    (ratingStage rmid tid row rto status changed db).2 = db ∨
    ∃ m : Int, rmid = some m ∧
      (ratingStage rmid tid row rto status changed db).2 =
        updateRow tid (fun r => { r with message_id := some m }) db := by
  rcases status with _ | s
  · left
    unfold ratingStage
    simp
  · unfold ratingStage
    by_cases hc : (changed && RATING_FINAL_STATUSES.contains s) = true
    · simp only [Bool.and_eq_true] at hc
      have hmem : s ∈ RATING_FINAL_STATUSES := by
        have h2 := hc.2
        simpa using h2
      rcases hu : row.user_id with _ | u
      · left
        simp [hc.1, hmem, hu]
      · by_cases hz : (u != 0) = true
        · rcases rmid with _ | m
          · left
            simp [hc.1, hmem, hu, hz]
          · right
            refine ⟨m, rfl, ?_⟩
            simp [hc.1, hmem, hu, hz]
        · left
          simp [hc.1, hmem, hu, hz]
    · left
      have hc2 : ¬(changed = true ∧ s ∈ RATING_FINAL_STATUSES) := by simpa using hc
      simp [hc2]

theorem clearStage_tickets (tid : String) (status : Option Int) (db : DbState) :
    (clearStage tid status db).tickets = db.tickets := by
  unfold clearStage
  split
  · split <;> rfl
  · rfl

theorem clearStage_cases (tid : String) (status : Option Int) (db : DbState) :
    clearStage tid status db = db ∨
    clearStage tid status db = clear_user_comments tid db := by
  unfold clearStage
  split
  · split
    · exact Or.inr rfl
    · exact Or.inl rfl
  · exact Or.inl rfl

theorem clear_user_comments_idem (tid : String) (db : DbState) :
    clear_user_comments tid (clear_user_comments tid db) =
      clear_user_comments tid db := by
  unfold clear_user_comments
  refine dbstate_ext _ _ rfl ?_
  show (db.user_comments.filter _).filter _ = db.user_comments.filter _
  rw [List.filter_filter]
  apply List.filter_congr
  intro a _
  cases h : a.1 == tid <;> simp

theorem fingerprintsOf_clear_self (tid : String) (db : DbState) :
    fingerprintsOf tid (clear_user_comments tid db) = [] := by
  unfold fingerprintsOf clear_user_comments
  show (db.user_comments.filter _).filter _ = []
  rw [List.filter_filter]
  have : ∀ a ∈ db.user_comments, ((a.1 == tid) && !(a.1 == tid)) = false := by
    intro a _
    cases a.1 == tid <;> simp
  rw [List.filter_congr this]
  exact List.filter_false _

theorem fingerprintsOf_clear_ne (tid tid2 : String) (h : tid2 ≠ tid)
    (db : DbState) :
    fingerprintsOf tid2 (clear_user_comments tid db) =
      fingerprintsOf tid2 db := by
  unfold fingerprintsOf clear_user_comments
  show (db.user_comments.filter _).filter _ = db.user_comments.filter _
  rw [List.filter_filter]
  apply List.filter_congr
  intro a _
  by_cases h2 : (a.1 == tid2) = true
  · have h3 : (a.1 == tid) = false := by
      simp only [beq_iff_eq] at h2
      rw [h2]
      exact beq_eq_false_iff_ne.mpr h
    rw [h2, h3]
    rfl
  · simp only [Bool.not_eq_true] at h2
    rw [h2]
    rfl

/-- C7: a payload whose ticket id has no stored row yields the
ticket-not-found outcome as a normal (non-exceptional) result — the 404
JSON response, distinguished in the model from the raised bad-request —
with no effects emitted and nothing written to the ticket table or the
fingerprint table. -/
theorem ticket_not_found_claim (simFn : String → String → Bool)
    (notifySet : List Int) (now : String) (rmid : Option Int)
    (payload : Payload) (db : DbState) (tid : String)
    (hf : find_ticket_id payload = some tid) (hne : tid ≠ "")
    (hrow : lookupTicket tid db = Option.none) :
    idk_webhook simFn notifySet now rmid payload db =
      ⟨.ticketNotFound, db, []⟩ := by
  unfold idk_webhook
  rw [hf]
  simp only [if_neg hne, hrow]

/-- Witness for C7 at a concrete payload and empty database. -/
theorem ticket_not_found_claim_witness :
    idk_webhook (fun _ _ => false) [106948] "T" Option.none
      [("ticket_id", PyVal.str "9" Option.none Option.none)] ⟨[], []⟩ =
      ⟨.ticketNotFound, ⟨[], []⟩, []⟩ :=
  ticket_not_found_claim _ _ _ _ _ _ "9" rfl (by decide) rfl

/-- C6: a payload whose status field is present but unparseable — the
extractor yields absent — while a valid non-echo comment candidate exists
still emits the forward-comment as the only effect of the pass and leaves
the ticket's stored status value unchanged; the status-extraction failure
never aborts comment processing in the same pass. -/
theorem unparseable_status_forwards_comment (simFn : String → String → Bool)
    (notifySet : List Int) (now : String) (rmid : Option Int)
    (payload : Payload) (db : DbState) (tid : String) (row : TicketRow)
    (cands : List String) (c : String)
    (hf : find_ticket_id payload = some tid) (hne : tid ≠ "")
    (hrow : lookupTicket tid db = some row)
    (hcands : collect_comment_candidates payload = .ok cands)
    (hmax : pyMax cands = some c)
    (hecho : user_comment_exists simFn tid c db = false)
    (hstatus : pick_status payload = .ok Option.none) :
    (∃ rto, (idk_webhook simFn notifySet now rmid payload db).effects =
      [Effect.forwardComment row.chat_id c rto]) ∧
    ∀ row2,
      lookupTicket tid (idk_webhook simFn notifySet now rmid payload db).db =
        some row2 → row2.status = row.status := by
  unfold idk_webhook
  rw [hf]
  simp only [if_neg hne, hrow]
  unfold webhook_process
  rw [hcands, hstatus]
  simp only [hmax, hecho]
  unfold update_ticket_status
  rw [hrow]
  simp only [notifyStage_changed_false, ratingStage_changed_false, Bool.false_eq_true,
    if_false]
  unfold clearStage
  simp only [List.append_nil]
  constructor
  · exact ⟨_, rfl⟩
  · intro row2 h2
    rw [lookupTicket_updateRow, hrow] at h2
    simp only [Option.map_some'] at h2
    cases h2
    rfl

/-- Witness for C6: a concrete payload with an unparseable status string and
the fallback comment field, against a stored ticket at status 106951. -/
theorem unparseable_status_forwards_comment_witness :
    (∃ rto, (idk_webhook (fun _ _ => false) [106948] "N" Option.none
      [("ticket_id", PyVal.str "42" Option.none Option.none),
       ("comment", PyVal.str "Access granted" Option.none Option.none),
       ("Fields", PyVal.dict [("status",
          PyVal.str "garbage" Option.none Option.none)])]
      ⟨[("42", ⟨some "T-1", 500, some 7, Option.none, some 3, Option.none,
          some 106951, Option.none, Option.none⟩)], []⟩).effects =
      [Effect.forwardComment 500 "Access granted" rto]) ∧
    ∀ row2,
      lookupTicket "42" (idk_webhook (fun _ _ => false) [106948] "N" Option.none
        [("ticket_id", PyVal.str "42" Option.none Option.none),
         ("comment", PyVal.str "Access granted" Option.none Option.none),
         ("Fields", PyVal.dict [("status",
            PyVal.str "garbage" Option.none Option.none)])]
        ⟨[("42", ⟨some "T-1", 500, some 7, Option.none, some 3, Option.none,
            some 106951, Option.none, Option.none⟩)], []⟩).db =
        some row2 →
      row2.status = (⟨some "T-1", 500, some 7, Option.none, some 3, Option.none,
        some 106951, Option.none, Option.none⟩ : TicketRow).status :=
  unparseable_status_forwards_comment _ _ _ _ _ _ "42"
    ⟨some "T-1", 500, some 7, Option.none, some 3, Option.none,
      some 106951, Option.none, Option.none⟩
    ["Access granted"] "Access granted"
    rfl (by decide) rfl rfl rfl rfl rfl

theorem notifyStage_eq_prompt (notifySet : List Int) (now tid : String)
    (row row1 : TicketRow) (rto : Option Int) (s : Int) (db : DbState)
    (hmem : s ∈ notifySet) (hlk : lookupTicket tid db = some row1)
    (hn : row1.notified_status ≠ some s) :
    notifyStage notifySet now tid row rto (some s) true db =
      ([Effect.notifyPrompt row.chat_id
          ("Заявка #" ++ taskNumberDisp row.task_number ++
           " требует вашего ответа — добавьте комментарий или, если заявка уже не актуальна, мы её закроем!")
          rto],
       updateRow tid (fun r =>
         { r with notified_status := some s, status_changed_at := some now }) db) := by
  unfold notifyStage
  simp [hmem, hlk, hn]

theorem notifyStage_already (notifySet : List Int) (now tid : String)
    (row row1 : TicketRow) (rto : Option Int) (s : Int) (changed : Bool)
    (db : DbState) (hlk : lookupTicket tid db = some row1)
    (hn : row1.notified_status = some s) :
    notifyStage notifySet now tid row rto (some s) changed db = ([], db) := by
  unfold notifyStage
  by_cases hc : (changed && notifySet.contains s) = true
  · simp only [Bool.and_eq_true] at hc
    have hmem : s ∈ notifySet := by
      have h2 := hc.2
      simpa using h2
    simp [hc.1, hmem, hlk, hn]
  · have hc2 : ¬(changed = true ∧ s ∈ notifySet) := by simpa using hc
    simp [hc2]

theorem notifyStage_not_mem (notifySet : List Int) (now tid : String)
    (row : TicketRow) (rto : Option Int) (s : Int) (changed : Bool)
    (db : DbState) (hmem : s ∉ notifySet) :
    notifyStage notifySet now tid row rto (some s) changed db = ([], db) := by
  unfold notifyStage
  have hc2 : ¬(changed = true ∧ s ∈ notifySet) := fun h => hmem h.2
  simp [hc2]

theorem notifyStage_cases_full (notifySet : List Int) (now tid : String)
    (row : TicketRow) (rto : Option Int) (status : Option Int) (changed : Bool)
    (db : DbState) :
    notifyStage notifySet now tid row rto status changed db = ([], db) ∨
    ∃ s row1, changed = true ∧ status = some s ∧ s ∈ notifySet ∧
      lookupTicket tid db = some row1 ∧ row1.notified_status ≠ some s ∧
      notifyStage notifySet now tid row rto status changed db =
        ([Effect.notifyPrompt row.chat_id
            ("Заявка #" ++ taskNumberDisp row.task_number ++
             " требует вашего ответа — добавьте комментарий или, если заявка уже не актуальна, мы её закроем!")
            rto],
         updateRow tid (fun r =>
           { r with notified_status := some s, status_changed_at := some now }) db) := by
  rcases status with _ | s
  · left
    unfold notifyStage
    simp
  · by_cases hch : changed = true
    · subst hch
      by_cases hmem : s ∈ notifySet
      · rcases hlk : lookupTicket tid db with _ | row1
        · left
          unfold notifyStage
          simp [hmem, hlk]
        · by_cases hn : row1.notified_status = some s
          · left
            exact notifyStage_already _ _ _ _ _ _ _ _ _ hlk hn
          · right
            exact ⟨s, row1, rfl, rfl, hmem, rfl, hn,
              notifyStage_eq_prompt _ _ _ _ _ _ _ _ hmem hlk hn⟩
      · left
        exact notifyStage_not_mem _ _ _ _ _ _ _ _ hmem
    · left
      have : changed = false := by
        cases changed
        · rfl
        · exact absurd rfl hch
      rw [this]
      exact notifyStage_changed_false _ _ _ _ _ _ _

theorem ratingStage_cases_full (rmid : Option Int) (tid : String)
    (row : TicketRow) (rto : Option Int) (status : Option Int) (changed : Bool)
    (db : DbState) :
    ratingStage rmid tid row rto status changed db = ([], db) ∨
    ∃ s u, changed = true ∧ status = some s ∧ s ∈ RATING_FINAL_STATUSES ∧
      row.user_id = some u ∧ u ≠ 0 ∧
      ((rmid = Option.none ∧
        ratingStage rmid tid row rto status changed db =
          ([Effect.ratingPrompt row.chat_id tid row.task_number u rto], db)) ∨
       (∃ m, rmid = some m ∧
        ratingStage rmid tid row rto status changed db =
          ([Effect.ratingPrompt row.chat_id tid row.task_number u rto],
           updateRow tid (fun r => { r with message_id := some m }) db))) := by
  rcases status with _ | s
  · left
    unfold ratingStage
    simp
  · by_cases hch : changed = true
    · subst hch
      by_cases hmem : s ∈ RATING_FINAL_STATUSES
      · rcases hu : row.user_id with _ | u
        · left
          unfold ratingStage
          simp [hmem, hu]
        · by_cases hz : u = 0
          · left
            unfold ratingStage
            simp [hmem, hu, hz]
          · right
            refine ⟨s, u, rfl, rfl, hmem, rfl, hz, ?_⟩
            rcases rmid with _ | m
            · left
              refine ⟨rfl, ?_⟩
              unfold ratingStage
              simp [hmem, hu, hz]
            · right
              refine ⟨m, rfl, ?_⟩
              unfold ratingStage
              simp [hmem, hu, hz]
      · left
        unfold ratingStage
        have hc2 : ¬(True ∧ s ∈ RATING_FINAL_STATUSES) := fun h => hmem h.2
        simp [hmem]
    · left
      have : changed = false := by
        cases changed
        · rfl
        · exact absurd rfl hch
      rw [this]
      exact ratingStage_changed_false _ _ _ _ _ _

theorem lookupTicket_clearStage (tid tid0 : String) (status : Option Int)
    (db : DbState) :
    lookupTicket tid (clearStage tid0 status db) = lookupTicket tid db := by
  unfold lookupTicket
  rw [clearStage_tickets]

/-- Helper: with a final extracted status and successful candidate collection,
a full pass leaves no stored fingerprints for the ticket (lines 536-543). -/
theorem webhook_clears_final (simFn : String → String → Bool)
    (notifySet : List Int) (now : String) (rmid : Option Int)
    (payload : Payload) (db : DbState) (tid : String) (row : TicketRow)
    (s : Int) (hf : find_ticket_id payload = some tid) (hne : tid ≠ "")
    (hrow : lookupTicket tid db = some row)
    (hcands : ∃ c, collect_comment_candidates payload = .ok c)
    (hs : pick_status payload = .ok (some s))
    (hmem : FINAL_STATUSES.contains s = true) :
    fingerprintsOf tid (idk_webhook simFn notifySet now rmid payload db).db
      = [] := by
  obtain ⟨c, hc⟩ := hcands
  unfold idk_webhook
  rw [hf]
  simp only [if_neg hne, hrow]
  simp only [webhook_process, update_ticket_status, hrow, hc, hs]
  simp only [clearStage, hmem, if_true]
  exact fingerprintsOf_clear_self tid _

/-- C10: a rating prompt is emitted (and the sent message id persisted into the
row's `message_id`) only when the extracted status is one of
`RATING_FINAL_STATUSES` = {106950, 106946}, it differs from the stored status,
and the row's `user_id` is a present, truthy integer; with status 106949 no
rating is emitted but fingerprints are still cleared, and with a null `user_id`
no rating is emitted (lines 524-544). -/
theorem rating_prompt_gate (simFn : String → String → Bool)
    (notifySet : List Int) (now : String) (rmid : Option Int)
    (payload : Payload) (db : DbState) (tid : String) (row : TicketRow)
    (hf : find_ticket_id payload = some tid) (hne : tid ≠ "")
    (hrow : lookupTicket tid db = some row) :
    (∀ e ∈ (idk_webhook simFn notifySet now rmid payload db).effects,
      e.isRating = true →
      ∃ s u, pick_status payload = .ok (some s) ∧ s ∈ RATING_FINAL_STATUSES ∧
        row.status ≠ some s ∧ row.user_id = some u ∧ u ≠ 0) ∧
    (∀ row2,
      lookupTicket tid (idk_webhook simFn notifySet now rmid payload db).db =
        some row2 →
      row2.message_id ≠ row.message_id →
      (∃ m, rmid = some m ∧ row2.message_id = some m) ∧
      ∃ e ∈ (idk_webhook simFn notifySet now rmid payload db).effects,
        e.isRating = true) ∧
    (pick_status payload = .ok (some 106949) →
      (∀ e ∈ (idk_webhook simFn notifySet now rmid payload db).effects,
        e.isRating = false) ∧
      (∀ c, collect_comment_candidates payload = .ok c →
        fingerprintsOf tid
          (idk_webhook simFn notifySet now rmid payload db).db = [])) ∧
    (row.user_id = Option.none →
      ∀ e ∈ (idk_webhook simFn notifySet now rmid payload db).effects,
        e.isRating = false) := by
  have hmaster : ∀ e ∈ (idk_webhook simFn notifySet now rmid payload db).effects,
      e.isRating = true →
      ∃ s u, pick_status payload = .ok (some s) ∧ s ∈ RATING_FINAL_STATUSES ∧
        row.status ≠ some s ∧ row.user_id = some u ∧ u ≠ 0 := by
    unfold idk_webhook
    rw [hf]
    simp only [if_neg hne, hrow]
    simp only [webhook_process, update_ticket_status, hrow]
    rcases hc : collect_comment_candidates payload with err | cands
    · intro e he
      simp at he
    · rcases hs : pick_status payload with err | status
      · intro e he
        simp at he
      · intro e he hr
        simp only [List.mem_append] at he
        rcases he with (he | he) | he
        · exfalso
          rcases hmx : pyMax cands with _ | c
          · simp [hmx] at he
          · simp only [hmx] at he
            by_cases hex : user_comment_exists simFn tid c db = true
            · simp [hex] at he
            · simp only [Bool.not_eq_true] at hex
              simp [hex] at he
              rw [he] at hr
              simp [Effect.isRating] at hr
        · exfalso
          rcases notifyStage_cases_full notifySet now tid row _ status _ _ with hN |
            ⟨s, row1, hch, hst, hmem, hlk, hnn, hN⟩
          · rw [hN] at he
            simp at he
          · rw [hN] at he
            simp at he
            rw [he] at hr
            simp [Effect.isRating] at hr
        · rcases ratingStage_cases_full rmid tid row _ status _ _ with hR |
            ⟨s, u, hch, hst, hmem, hu, hz, hR⟩
          · rw [hR] at he
            simp at he
          · subst hst
            simp only [decide_eq_true_eq] at hch
            exact ⟨s, u, rfl, hmem, hch, hu, hz⟩
  refine ⟨hmaster, ?_, ?_, ?_⟩
  · unfold idk_webhook
    rw [hf]
    simp only [if_neg hne, hrow]
    simp only [webhook_process, update_ticket_status, hrow]
    rcases hc : collect_comment_candidates payload with err | cands
    · intro row2 h2 hneq
      simp only at h2
      rw [hrow] at h2
      cases h2
      exact absurd rfl hneq
    · rcases hs : pick_status payload with err | status
      · intro row2 h2 hneq
        simp only at h2
        rw [hrow] at h2
        cases h2
        exact absurd rfl hneq
      · intro row2 h2 hneq
        rw [lookupTicket_clearStage] at h2
        rcases ratingStage_cases_full rmid tid row _ status _ _ with hR |
          ⟨s, u, hch, hst, hmem, hu, hz, hR⟩
        · exfalso
          rw [hR] at h2
          rcases notifyStage_cases_full notifySet now tid row _ status _ _ with hN |
            ⟨s, row1, hch, hst, hmem, hlk, hnn, hN⟩
          · rw [hN] at h2
            simp only [Prod.snd] at h2
            rw [lookupTicket_updateRow, hrow] at h2
            simp only [Option.map_some'] at h2
            cases h2
            exact hneq rfl
          · rw [hN] at h2
            simp only [Prod.snd] at h2
            rw [updateRow_comp, lookupTicket_updateRow, hrow] at h2
            simp only [Option.map_some'] at h2
            cases h2
            exact hneq rfl
        · rcases hR with ⟨hm0, hR⟩ | ⟨m, hm, hR⟩
          · exfalso
            rw [hR] at h2
            rcases notifyStage_cases_full notifySet now tid row _ status _ _ with hN |
              ⟨s2, row1, hch2, hst2, hmem2, hlk2, hnn2, hN⟩
            · rw [hN] at h2
              simp only [Prod.snd] at h2
              rw [lookupTicket_updateRow, hrow] at h2
              simp only [Option.map_some'] at h2
              cases h2
              exact hneq rfl
            · rw [hN] at h2
              simp only [Prod.snd] at h2
              rw [updateRow_comp, lookupTicket_updateRow, hrow] at h2
              simp only [Option.map_some'] at h2
              cases h2
              exact hneq rfl
          · refine ⟨⟨m, hm, ?_⟩, ?_⟩
            · rw [hR] at h2
              rcases notifyStage_cases_full notifySet now tid row _ status _ _ with hN |
                ⟨s2, row1, hch2, hst2, hmem2, hlk2, hnn2, hN⟩
              · rw [hN] at h2
                simp only [Prod.snd] at h2
                rw [updateRow_comp, lookupTicket_updateRow, hrow] at h2
                simp only [Option.map_some'] at h2
                cases h2
                rfl
              · rw [hN] at h2
                simp only [Prod.snd] at h2
                rw [updateRow_comp, updateRow_comp, lookupTicket_updateRow, hrow] at h2
                simp only [Option.map_some'] at h2
                cases h2
                rfl
            · simp only [hR, Prod.fst]
              exact ⟨_, List.mem_append_right _ (List.mem_singleton_self _), rfl⟩
  · intro hps
    constructor
    · intro e he
      rcases Bool.eq_false_or_eq_true e.isRating with hb | hb
      · exfalso
        rcases hmaster e he hb with ⟨s, u, hps2, hmem, _, _, _⟩
        rw [hps] at hps2
        injection hps2 with h1
        injection h1 with h2
        subst h2
        exact absurd hmem (by decide)
      · exact hb
    · intro c hcol
      exact webhook_clears_final simFn notifySet now rmid payload db tid row
        106949 hf hne hrow ⟨c, hcol⟩ hps (by decide)
  · intro hnull e he
    rcases Bool.eq_false_or_eq_true e.isRating with hb | hb
    · exfalso
      rcases hmaster e he hb with ⟨s, u, _, _, _, hu, _⟩
      rw [hnull] at hu
      exact Option.noConfusion hu
    · exact hb

def c10Row : TicketRow :=
  ⟨some "TASK-1", 10, some 555, Option.none, some 42, Option.none,
    some 106951, Option.none, Option.none⟩

def c10Payload : Payload := [("ticket_id", PyVal.str "9" Option.none Option.none)]

def c10Db : DbState := ⟨[("9", c10Row)], []⟩

theorem rating_prompt_gate_witness :
    (∀ e ∈ (idk_webhook (fun _ _ => false) [] "T" (some 5) c10Payload c10Db).effects,
      e.isRating = true →
      ∃ s u, pick_status c10Payload = .ok (some s) ∧ s ∈ RATING_FINAL_STATUSES ∧
        c10Row.status ≠ some s ∧ c10Row.user_id = some u ∧ u ≠ 0) ∧
    (∀ row2,
      lookupTicket "9" (idk_webhook (fun _ _ => false) [] "T" (some 5) c10Payload c10Db).db =
        some row2 →
      row2.message_id ≠ c10Row.message_id →
      (∃ m, (some 5 : Option Int) = some m ∧ row2.message_id = some m) ∧
      ∃ e ∈ (idk_webhook (fun _ _ => false) [] "T" (some 5) c10Payload c10Db).effects,
        e.isRating = true) ∧
    (pick_status c10Payload = .ok (some 106949) →
      (∀ e ∈ (idk_webhook (fun _ _ => false) [] "T" (some 5) c10Payload c10Db).effects,
        e.isRating = false) ∧
      (∀ c, collect_comment_candidates c10Payload = .ok c →
        fingerprintsOf "9"
          (idk_webhook (fun _ _ => false) [] "T" (some 5) c10Payload c10Db).db = [])) ∧
    (c10Row.user_id = Option.none →
      ∀ e ∈ (idk_webhook (fun _ _ => false) [] "T" (some 5) c10Payload c10Db).effects,
        e.isRating = false) :=
  rating_prompt_gate (fun _ _ => false) [] "T" (some 5) c10Payload c10Db "9" c10Row
    rfl (by decide) rfl

theorem updateRow_user_comments (tid : String) (f : TicketRow → TicketRow)
    (db : DbState) : (updateRow tid f db).user_comments = db.user_comments := rfl

theorem clearStage_idem (tid : String) (status : Option Int) (db : DbState) :
    clearStage tid status (clearStage tid status db) = clearStage tid status db := by
  rcases status with _ | s
  · rfl
  · unfold clearStage
    by_cases h : FINAL_STATUSES.contains s = true
    · simp only [h, if_true]
      exact clear_user_comments_idem tid db
    · have hm : s ∉ FINAL_STATUSES := by simpa using h
      simp [hm]

theorem fingerprintsOf_clearStage_ne (tid tid2 : String) (h : tid2 ≠ tid)
    (status : Option Int) (db : DbState) :
    fingerprintsOf tid2 (clearStage tid status db) = fingerprintsOf tid2 db := by
  rcases status with _ | s
  · rfl
  · unfold clearStage
    by_cases hc : FINAL_STATUSES.contains s = true
    · simp only [hc, if_true]
      exact fingerprintsOf_clear_ne tid tid2 h db
    · have hm : s ∉ FINAL_STATUSES := by simpa using hc
      simp [hm]

theorem fingerprintsOf_updateRow (tid2 tid : String) (f : TicketRow → TicketRow)
    (db : DbState) :
    fingerprintsOf tid2 (updateRow tid f db) = fingerprintsOf tid2 db := rfl

theorem lookupTicket_mem (tid : String) (db : DbState) (r : TicketRow)
    (h : lookupTicket tid db = some r) :
    ∃ p ∈ db.tickets, p.1 = tid ∧ p.2 = r := by
  unfold lookupTicket at h
  rcases hf : db.tickets.find? (fun p => p.1 == tid) with _ | p
  · rw [hf] at h
    cases h
  · rw [hf] at h
    have hp := List.find?_some hf
    have hmem := List.mem_of_find?_eq_some hf
    refine ⟨p, hmem, by simpa using hp, ?_⟩
    simpa using h

theorem ticketrow_ext (a b : TicketRow) (h1 : a.task_number = b.task_number)
    (h2 : a.chat_id = b.chat_id) (h3 : a.user_id = b.user_id)
    (h4 : a.message_id = b.message_id)
    (h5 : a.last_user_message_id = b.last_user_message_id)
    (h6 : a.last_updated = b.last_updated) (h7 : a.status = b.status)
    (h8 : a.notified_status = b.notified_status)
    (h9 : a.status_changed_at = b.status_changed_at) : a = b := by
  cases a
  cases b
  simp_all

/-- Helper: structural facts about a completed pass — the ticket still
resolves, every row stored under the ticket id carries `last_updated = now`
and the extracted status, and a second fingerprint clearing is a no-op. -/
theorem webhook_pass_props (simFn : String → String → Bool)
    (notifySet : List Int) (now : String) (rmid : Option Int)
    (payload : Payload) (db : DbState) (tid : String) (row : TicketRow)
    (cands : List String) (status : Option Int)
    (hf : find_ticket_id payload = some tid) (hne : tid ≠ "")
    (hrow : lookupTicket tid db = some row)
    (hc : collect_comment_candidates payload = .ok cands)
    (hs : pick_status payload = .ok status) :
    (∃ row2, lookupTicket tid
      (idk_webhook simFn notifySet now rmid payload db).db = some row2) ∧
    (∀ p ∈ (idk_webhook simFn notifySet now rmid payload db).db.tickets,
      p.1 = tid → p.2.last_updated = some now ∧
        ∀ s, status = some s → p.2.status = some s) ∧
    clearStage tid status (idk_webhook simFn notifySet now rmid payload db).db =
      (idk_webhook simFn notifySet now rmid payload db).db := by
  unfold idk_webhook
  rw [hf]
  simp only [if_neg hne, hrow]
  simp only [webhook_process, update_ticket_status, hrow, hc, hs]
  rcases ratingStage_cases_full rmid tid row _ status _ _ with hR |
      ⟨s2, u2, hch2, hst2, hmem2, hu2, hz2, hR⟩
  · rw [hR]
    simp only [Prod.snd]
    rcases notifyStage_cases_full notifySet now tid row _ status _ _ with hN |
        ⟨s1, row1, hch1, hst1, hmem1, hlk1, hnn1, hN⟩
    · rw [hN]
      simp only [Prod.snd]
      refine ⟨?_, ?_, clearStage_idem _ _ _⟩
      · rw [lookupTicket_clearStage, lookupTicket_updateRow, hrow]
        exact ⟨_, rfl⟩
      · rw [clearStage_tickets]
        refine updateRow_forall _ _
          (fun r => r.last_updated = some now ∧
            ∀ s, status = some s → r.status = some s) _ ?_
        intro q hq hk
        exact ⟨rfl, fun s' hs' => by subst hs'; rfl⟩
    · rw [hN]
      simp only [Prod.snd]
      rw [updateRow_comp]
      refine ⟨?_, ?_, clearStage_idem _ _ _⟩
      · rw [lookupTicket_clearStage, lookupTicket_updateRow, hrow]
        exact ⟨_, rfl⟩
      · rw [clearStage_tickets]
        refine updateRow_forall _ _
          (fun r => r.last_updated = some now ∧
            ∀ s, status = some s → r.status = some s) _ ?_
        intro q hq hk
        exact ⟨rfl, fun s' hs' => by subst hs'; rfl⟩
  · rcases hR with ⟨hm0, hR⟩ | ⟨m, hm, hR⟩ <;> rw [hR] <;> simp only [Prod.snd]
    · rcases notifyStage_cases_full notifySet now tid row _ status _ _ with hN |
          ⟨s1, row1, hch1, hst1, hmem1, hlk1, hnn1, hN⟩
      · rw [hN]
        simp only [Prod.snd]
        refine ⟨?_, ?_, clearStage_idem _ _ _⟩
        · rw [lookupTicket_clearStage, lookupTicket_updateRow, hrow]
          exact ⟨_, rfl⟩
        · rw [clearStage_tickets]
          refine updateRow_forall _ _
            (fun r => r.last_updated = some now ∧
              ∀ s, status = some s → r.status = some s) _ ?_
          intro q hq hk
          exact ⟨rfl, fun s' hs' => by subst hs'; rfl⟩
      · rw [hN]
        simp only [Prod.snd]
        rw [updateRow_comp]
        refine ⟨?_, ?_, clearStage_idem _ _ _⟩
        · rw [lookupTicket_clearStage, lookupTicket_updateRow, hrow]
          exact ⟨_, rfl⟩
        · rw [clearStage_tickets]
          refine updateRow_forall _ _
            (fun r => r.last_updated = some now ∧
              ∀ s, status = some s → r.status = some s) _ ?_
          intro q hq hk
          exact ⟨rfl, fun s' hs' => by subst hs'; rfl⟩
    · rcases notifyStage_cases_full notifySet now tid row _ status _ _ with hN |
          ⟨s1, row1, hch1, hst1, hmem1, hlk1, hnn1, hN⟩
      · rw [hN]
        simp only [Prod.snd]
        rw [updateRow_comp]
        refine ⟨?_, ?_, clearStage_idem _ _ _⟩
        · rw [lookupTicket_clearStage, lookupTicket_updateRow, hrow]
          exact ⟨_, rfl⟩
        · rw [clearStage_tickets]
          refine updateRow_forall _ _
            (fun r => r.last_updated = some now ∧
              ∀ s, status = some s → r.status = some s) _ ?_
          intro q hq hk
          exact ⟨rfl, fun s' hs' => by subst hs'; rfl⟩
      · rw [hN]
        simp only [Prod.snd]
        rw [updateRow_comp, updateRow_comp]
        refine ⟨?_, ?_, clearStage_idem _ _ _⟩
        · rw [lookupTicket_clearStage, lookupTicket_updateRow, hrow]
          exact ⟨_, rfl⟩
        · rw [clearStage_tickets]
          refine updateRow_forall _ _
            (fun r => r.last_updated = some now ∧
              ∀ s, status = some s → r.status = some s) _ ?_
          intro q hq hk
          exact ⟨rfl, fun s' hs' => by subst hs'; rfl⟩

/-- Helper: when the notify gate of lines 501-522 is satisfied, the pass
emits the prompt and persists `notified_status` on every row under the
ticket id. -/
theorem webhook_notify_fires (simFn : String → String → Bool)
    (notifySet : List Int) (now : String) (rmid : Option Int)
    (payload : Payload) (db : DbState) (tid : String) (row : TicketRow)
    (cands : List String) (s : Int)
    (hf : find_ticket_id payload = some tid) (hne : tid ≠ "")
    (hrow : lookupTicket tid db = some row)
    (hc : collect_comment_candidates payload = .ok cands)
    (hs : pick_status payload = .ok (some s))
    (hchg : row.status ≠ some s) (hmem : s ∈ notifySet)
    (hnn : row.notified_status ≠ some s) :
    (∃ e ∈ (idk_webhook simFn notifySet now rmid payload db).effects,
      e.isNotify = true) ∧
    (∀ p ∈ (idk_webhook simFn notifySet now rmid payload db).db.tickets,
      p.1 = tid → p.2.notified_status = some s) := by
  unfold idk_webhook
  rw [hf]
  simp only [if_neg hne, hrow]
  simp only [webhook_process, update_ticket_status, hrow, hc, hs]
  rw [decide_eq_true hchg]
  have hlk1 : lookupTicket tid (updateRow tid (fun r =>
      { r with status := some s, last_updated := some now }) db) =
      some { row with status := some s, last_updated := some now } := by
    rw [lookupTicket_updateRow, hrow]
    rfl
  have hnn1 : ({ row with status := some s, last_updated := some now }
      : TicketRow).notified_status ≠ some s := hnn
  rw [notifyStage_eq_prompt notifySet now tid row _ _ s _ hmem hlk1 hnn1]
  simp only [Prod.snd, Prod.fst]
  rcases ratingStage_cases_full rmid tid row _ (some s) _ _ with hR |
      ⟨s2, u2, hch2, hst2, hmem2, hu2, hz2, hR⟩
  · rw [hR]
    simp only [Prod.snd, Prod.fst]
    constructor
    · exact ⟨_, List.mem_append_left _
        (List.mem_append_right _ (List.mem_singleton_self _)), rfl⟩
    · rw [clearStage_tickets, updateRow_comp]
      refine updateRow_forall _ _ (fun r => r.notified_status = some s) _ ?_
      intro q hq hk
      rfl
  · rcases hR with ⟨hm0, hR⟩ | ⟨m, hm, hR⟩ <;> rw [hR] <;>
      simp only [Prod.snd, Prod.fst]
    · constructor
      · exact ⟨_, List.mem_append_left _
          (List.mem_append_right _ (List.mem_singleton_self _)), rfl⟩
      · rw [clearStage_tickets, updateRow_comp]
        refine updateRow_forall _ _ (fun r => r.notified_status = some s) _ ?_
        intro q hq hk
        rfl
    · constructor
      · exact ⟨_, List.mem_append_left _
          (List.mem_append_right _ (List.mem_singleton_self _)), rfl⟩
      · rw [clearStage_tickets, updateRow_comp, updateRow_comp]
        refine updateRow_forall _ _ (fun r => r.notified_status = some s) _ ?_
        intro q hq hk
        rfl

/-- Helper: a notify prompt in the pass's effects implies the full gate of
lines 501-522 held for the fetched row. -/
theorem webhook_notify_only_if (simFn : String → String → Bool)
    (notifySet : List Int) (now : String) (rmid : Option Int)
    (payload : Payload) (db : DbState) (tid : String) (row : TicketRow)
    (hf : find_ticket_id payload = some tid) (hne : tid ≠ "")
    (hrow : lookupTicket tid db = some row) :
    ∀ e ∈ (idk_webhook simFn notifySet now rmid payload db).effects,
      e.isNotify = true →
      ∃ s, pick_status payload = .ok (some s) ∧ row.status ≠ some s ∧
        s ∈ notifySet ∧ row.notified_status ≠ some s := by
  unfold idk_webhook
  rw [hf]
  simp only [if_neg hne, hrow]
  simp only [webhook_process, update_ticket_status, hrow]
  rcases hc : collect_comment_candidates payload with err | cands
  · intro e he
    simp at he
  · rcases hs : pick_status payload with err | status
    · intro e he
      simp at he
    · intro e he hr
      simp only [List.mem_append] at he
      rcases he with (he | he) | he
      · exfalso
        rcases hmx : pyMax cands with _ | c
        · simp [hmx] at he
        · simp only [hmx] at he
          by_cases hex : user_comment_exists simFn tid c db = true
          · simp [hex] at he
          · simp only [Bool.not_eq_true] at hex
            simp [hex] at he
            rw [he] at hr
            simp [Effect.isNotify] at hr
      · rcases notifyStage_cases_full notifySet now tid row _ status _ _ with hN |
          ⟨s, row1, hch, hst, hmem, hlk, hnn, hN⟩
        · rw [hN] at he
          simp at he
        · subst hst
          simp only [decide_eq_true_eq] at hch
          rw [lookupTicket_updateRow, hrow] at hlk
          simp only [Option.map_some'] at hlk
          cases hlk
          exact ⟨s, rfl, hch, hmem, hnn⟩
      · exfalso
        rcases ratingStage_cases_full rmid tid row _ status _ _ with hR |
          ⟨s, u, hch, hst, hmem, hu, hz, hR⟩
        · rw [hR] at he
          simp at he
        · rcases hR with ⟨hm0, hR⟩ | ⟨m, hm, hR⟩ <;> rw [hR] at he <;>
            simp at he <;> rw [he] at hr <;> simp [Effect.isNotify] at hr

/-- Helper: when the stored status already equals whatever status the
payload extracts, the pass emits neither a notify prompt nor a rating
prompt (the `status_changed` flag of lines 200-204 is false). -/
theorem webhook_no_notify_of_settled (simFn : String → String → Bool)
    (notifySet : List Int) (now : String) (rmid : Option Int)
    (payload : Payload) (db : DbState) (tid : String)
    (hf : find_ticket_id payload = some tid)
    (hsettle : ∀ s, pick_status payload = .ok (some s) →
      ∀ row2, lookupTicket tid db = some row2 → row2.status = some s) :
    ∀ e ∈ (idk_webhook simFn notifySet now rmid payload db).effects,
      e.isNotify = false ∧ e.isRating = false := by
  unfold idk_webhook
  rw [hf]
  by_cases hne : tid = ""
  · simp only [if_pos hne]
    intro e he
    simp at he
  · simp only [if_neg hne]
    rcases hrow : lookupTicket tid db with _ | row
    · intro e he
      simp at he
    · simp only [webhook_process, update_ticket_status, hrow]
      rcases hc : collect_comment_candidates payload with err | cands
      · intro e he
        simp at he
      · rcases hs : pick_status payload with err | status
        · intro e he
          simp at he
        · intro e he
          rcases status with _ | s
          · simp only [notifyStage_changed_false, ratingStage_changed_false,
              List.append_nil] at he
            rcases hmx : pyMax cands with _ | c
            · simp [hmx] at he
            · simp only [hmx] at he
              by_cases hex : user_comment_exists simFn tid c db = true
              · simp [hex] at he
              · simp only [Bool.not_eq_true] at hex
                simp [hex] at he
                rw [he]
                exact ⟨rfl, rfl⟩
          · have hd : decide (row.status ≠ some s) = false := by
              rw [hsettle s hs row hrow]
              simp
            simp only [hd, notifyStage_changed_false, ratingStage_changed_false,
              List.append_nil] at he
            rcases hmx : pyMax cands with _ | c
            · simp [hmx] at he
            · simp only [hmx] at he
              by_cases hex : user_comment_exists simFn tid c db = true
              · simp [hex] at he
              · simp only [Bool.not_eq_true] at hex
                simp [hex] at he
                rw [he]
                exact ⟨rfl, rfl⟩

/-- C4: a notify prompt is emitted exactly when the extracted status
differs from the stored one, lies in the configured notify set, and
`notified_status` does not already equal it; the emission persists
`notified_status`, and a second event extracting the same status (against
the post-pass database) emits no further prompt. -/
theorem notify_prompt_once (simFn : String → String → Bool)
    (notifySet : List Int) (now : String) (rmid : Option Int)
    (payload : Payload) (db : DbState) (tid : String) (row : TicketRow)
    (cands : List String)
    (hf : find_ticket_id payload = some tid) (hne : tid ≠ "")
    (hrow : lookupTicket tid db = some row)
    (hc : collect_comment_candidates payload = .ok cands) :
    ((∃ e ∈ (idk_webhook simFn notifySet now rmid payload db).effects,
        e.isNotify = true) ↔
      ∃ s, pick_status payload = .ok (some s) ∧ row.status ≠ some s ∧
        s ∈ notifySet ∧ row.notified_status ≠ some s) ∧
    (∀ s, pick_status payload = .ok (some s) → row.status ≠ some s →
      s ∈ notifySet → row.notified_status ≠ some s →
      ∀ row2, lookupTicket tid
          (idk_webhook simFn notifySet now rmid payload db).db = some row2 →
        row2.notified_status = some s) ∧
    (∀ payload2 now2 rmid2,
      find_ticket_id payload2 = some tid →
      pick_status payload2 = pick_status payload →
      ∀ e ∈ (idk_webhook simFn notifySet now2 rmid2 payload2
          (idk_webhook simFn notifySet now rmid payload db).db).effects,
        e.isNotify = false) := by
  refine ⟨⟨?_, ?_⟩, ?_, ?_⟩
  · rintro ⟨e, he, hr⟩
    exact webhook_notify_only_if simFn notifySet now rmid payload db tid row
      hf hne hrow e he hr
  · rintro ⟨s, hps, hchg, hmem, hnn⟩
    exact (webhook_notify_fires simFn notifySet now rmid payload db tid row
      cands s hf hne hrow hc hps hchg hmem hnn).1
  · intro s hps hchg hmem hnn row2 hl2
    obtain ⟨p, hp, hk, hpr⟩ := lookupTicket_mem _ _ _ hl2
    have hall := (webhook_notify_fires simFn notifySet now rmid payload db tid
      row cands s hf hne hrow hc hps hchg hmem hnn).2 p hp hk
    rw [hpr] at hall
    exact hall
  · intro payload2 now2 rmid2 hf2 hps2 e he
    refine ((webhook_no_notify_of_settled simFn notifySet now2 rmid2 payload2
      (idk_webhook simFn notifySet now rmid payload db).db tid hf2 ?_) e he).1
    intro s hss row2 hl2
    rw [hps2] at hss
    obtain ⟨p, hp, hk, hpr⟩ := lookupTicket_mem _ _ _ hl2
    have hall := (webhook_pass_props simFn notifySet now rmid payload db tid
      row cands (some s) hf hne hrow hc hss).2.1 p hp hk
    rw [hpr] at hall
    exact hall.2 s rfl

def c4Payload : Payload :=
  [("ticket_id", PyVal.str "42" Option.none Option.none),
   ("comment", PyVal.str "Hello" Option.none Option.none),
   ("Fields", PyVal.dict [("status", PyVal.int 106948)])]

def c4Row : TicketRow :=
  ⟨some "T-1", 500, some 7, Option.none, some 3, Option.none,
    some 106951, Option.none, Option.none⟩

def c4Db : DbState := ⟨[("42", c4Row)], []⟩

theorem notify_prompt_once_witness :
    ((∃ e ∈ (idk_webhook (fun _ _ => false) [106948] "N" Option.none
        c4Payload c4Db).effects, e.isNotify = true) ↔
      ∃ s, pick_status c4Payload = .ok (some s) ∧ c4Row.status ≠ some s ∧
        s ∈ [(106948 : Int)] ∧ c4Row.notified_status ≠ some s) ∧
    (∀ s, pick_status c4Payload = .ok (some s) → c4Row.status ≠ some s →
      s ∈ [(106948 : Int)] → c4Row.notified_status ≠ some s →
      ∀ row2, lookupTicket "42"
          (idk_webhook (fun _ _ => false) [106948] "N" Option.none
            c4Payload c4Db).db = some row2 →
        row2.notified_status = some s) ∧
    (∀ payload2 now2 rmid2,
      find_ticket_id payload2 = some "42" →
      pick_status payload2 = pick_status c4Payload →
      ∀ e ∈ (idk_webhook (fun _ _ => false) [106948] now2 rmid2 payload2
          (idk_webhook (fun _ _ => false) [106948] "N" Option.none
            c4Payload c4Db).db).effects,
        e.isNotify = false) :=
  notify_prompt_once (fun _ _ => false) [106948] "N" Option.none c4Payload
    c4Db "42" c4Row ["Hello"] rfl (by decide) rfl rfl

/-- Helper: a pass over a database whose rows under the ticket id already
carry the extracted status and the current timestamp, and whose fingerprint
clearing is a no-op, leaves the database unchanged. -/
theorem webhook_db_settled (simFn : String → String → Bool)
    (notifySet : List Int) (now : String) (rmid : Option Int)
    (payload : Payload) (db : DbState) (tid : String)
    (hf : find_ticket_id payload = some tid)
    (hfix : ∀ st, pick_status payload = .ok st →
      ∀ p ∈ db.tickets, p.1 = tid → p.2.last_updated = some now ∧
        ∀ s, st = some s → p.2.status = some s)
    (hcl : ∀ st, pick_status payload = .ok st →
      clearStage tid st db = db) :
    (idk_webhook simFn notifySet now rmid payload db).db = db := by
  unfold idk_webhook
  rw [hf]
  by_cases hne : tid = ""
  · simp only [if_pos hne]
  · simp only [if_neg hne]
    rcases hlk : lookupTicket tid db with _ | row2
    · rfl
    · simp only [webhook_process, update_ticket_status, hlk]
      rcases hc2 : collect_comment_candidates payload with err | cands
      · rfl
      · rcases hs2 : pick_status payload with err | st
        · rfl
        · rcases st with _ | s
          · simp only []
            rw [notifyStage_changed_false, ratingStage_changed_false]
            simp only [Prod.snd, clearStage]
            refine updateRow_id_of _ _ _ ?_
            intro p hp hk
            refine ticketrow_ext _ _ rfl rfl rfl rfl rfl ?_ rfl rfl rfl
            exact ((hfix Option.none hs2 p hp hk).1).symm
          · obtain ⟨p0, hp0, hk0, hpr0⟩ := lookupTicket_mem _ _ _ hlk
            have hst0 := (hfix (some s) hs2 p0 hp0 hk0).2 s rfl
            rw [hpr0] at hst0
            have hd : decide (row2.status ≠ some s) = false := by
              rw [hst0]
              simp
            simp only []
            rw [hd, notifyStage_changed_false, ratingStage_changed_false]
            simp only [Prod.snd]
            have hupd : ∀ f : TicketRow → TicketRow,
                (∀ p ∈ db.tickets, p.1 = tid → f p.2 = p.2) →
                clearStage tid (some s) (updateRow tid f db) = db := by
              intro f hfx
              rw [updateRow_id_of _ _ _ hfx]
              exact hcl (some s) hs2
            refine hupd _ ?_
            intro p hp hk
            refine ticketrow_ext _ _ rfl rfl rfl rfl rfl ?_ ?_ rfl rfl
            · exact ((hfix (some s) hs2 p hp hk).1).symm
            · exact ((hfix (some s) hs2 p hp hk).2 s rfl).symm

/-- C2: one full pass is idempotent — re-running the webhook on the same
payload, clock and Telegram outcome against the database it produced
returns the same database (rows and fingerprints alike), and the repeat
emits no notify prompt and no rating prompt. -/
theorem reconcile_idempotent (simFn : String → String → Bool)
    (notifySet : List Int) (now : String) (rmid : Option Int)
    (payload : Payload) (db : DbState) :
    (idk_webhook simFn notifySet now rmid payload
        (idk_webhook simFn notifySet now rmid payload db).db).db =
      (idk_webhook simFn notifySet now rmid payload db).db ∧
    ∀ e ∈ (idk_webhook simFn notifySet now rmid payload
        (idk_webhook simFn notifySet now rmid payload db).db).effects,
      e.isNotify = false ∧ e.isRating = false := by
  rcases hf : find_ticket_id payload with _ | tid
  · have h1 : idk_webhook simFn notifySet now rmid payload db =
        ⟨.badRequest, db, []⟩ := by
      unfold idk_webhook
      rw [hf]
    refine ⟨by simp only [h1], ?_⟩
    intro e he
    simp only [h1] at he
    exact absurd he (List.not_mem_nil e)
  · by_cases hne : tid = ""
    · have h1 : idk_webhook simFn notifySet now rmid payload db =
          ⟨.badRequest, db, []⟩ := by
        unfold idk_webhook
        rw [hf]
        simp only [if_pos hne]
      refine ⟨by simp only [h1], ?_⟩
      intro e he
      simp only [h1] at he
      exact absurd he (List.not_mem_nil e)
    · rcases hrow : lookupTicket tid db with _ | row
      · have h1 : idk_webhook simFn notifySet now rmid payload db =
            ⟨.ticketNotFound, db, []⟩ := by
          unfold idk_webhook
          rw [hf]
          simp only [if_neg hne, hrow]
        refine ⟨by simp only [h1], ?_⟩
        intro e he
        simp only [h1] at he
        exact absurd he (List.not_mem_nil e)
      · rcases hc : collect_comment_candidates payload with err | cands
        · have h1 : idk_webhook simFn notifySet now rmid payload db =
              ⟨.internalError, db, []⟩ := by
            unfold idk_webhook
            rw [hf]
            simp only [if_neg hne, hrow]
            simp only [webhook_process, hc]
          refine ⟨by simp only [h1], ?_⟩
          intro e he
          simp only [h1] at he
          exact absurd he (List.not_mem_nil e)
        · rcases hs : pick_status payload with err | status
          · have h1 : idk_webhook simFn notifySet now rmid payload db =
                ⟨.internalError, db, []⟩ := by
              unfold idk_webhook
              rw [hf]
              simp only [if_neg hne, hrow]
              simp only [webhook_process, hc, hs]
            refine ⟨by simp only [h1], ?_⟩
            intro e he
            simp only [h1] at he
            exact absurd he (List.not_mem_nil e)
          · obtain ⟨⟨row2, hrow2⟩, hprops, hclear⟩ :=
              webhook_pass_props simFn notifySet now rmid payload db tid row
                cands status hf hne hrow hc hs
            constructor
            · refine webhook_db_settled simFn notifySet now rmid payload _ tid
                hf ?_ ?_
              · intro st hst2 p hp hk
                rw [hs] at hst2
                injection hst2 with h'
                subst h'
                exact hprops p hp hk
              · intro st hst2
                rw [hs] at hst2
                injection hst2 with h'
                subst h'
                exact hclear
            · intro e he
              refine (webhook_no_notify_of_settled simFn notifySet now rmid
                payload _ tid hf ?_ e he)
              intro s hss r2 hl2
              rw [hs] at hss
              injection hss with h'
              obtain ⟨p, hp, hk, hpr⟩ := lookupTicket_mem _ _ _ hl2
              have h2 := (hprops p hp hk).2
              rw [hpr] at h2
              exact h2 s h'

/-- Helper: every pass either leaves the database untouched (bad request,
unknown ticket, extraction or status failure) or rewrites exactly the rows
under the processed ticket id with a status-preserving-or-setting map and
then runs the fingerprint clearing for the extracted status. -/
theorem webhook_db_shape (simFn : String → String → Bool)
    (notifySet : List Int) (now : String) (rmid : Option Int)
    (payload : Payload) (db : DbState) :
    (idk_webhook simFn notifySet now rmid payload db).db = db ∨
    ∃ tid row cands status g,
      find_ticket_id payload = some tid ∧ tid ≠ "" ∧
      lookupTicket tid db = some row ∧
      collect_comment_candidates payload = .ok cands ∧
      pick_status payload = .ok status ∧
      (∀ r : TicketRow, (g r).status =
        (match status with | some n => some n | Option.none => r.status)) ∧
      (idk_webhook simFn notifySet now rmid payload db).db =
        clearStage tid status (updateRow tid g db) := by
  unfold idk_webhook
  rcases hf : find_ticket_id payload with _ | tid
  · left
    rfl
  · by_cases hne : tid = ""
    · left
      simp only [if_pos hne]
    · simp only [if_neg hne]
      rcases hrow : lookupTicket tid db with _ | row
      · left
        rfl
      · simp only [webhook_process, update_ticket_status, hrow]
        rcases hc : collect_comment_candidates payload with err | cands
        · left
          rfl
        · rcases hs : pick_status payload with err | status
          · left
            rfl
          · right
            simp only []
            rcases ratingStage_cases_full rmid tid row _ status _ _ with hR |
                ⟨s2, u2, hch2, hst2, hmem2, hu2, hz2, hR⟩
            · rw [hR]
              simp only [Prod.snd]
              rcases notifyStage_cases_full notifySet now tid row _ status _ _ with hN |
                  ⟨s1, row1, hch1, hst1, hmem1, hlk1, hnn1, hN⟩
              · rw [hN]
                simp only [Prod.snd]
                refine ⟨tid, row, cands, status, _, rfl, hne, hrow, rfl, rfl, ?_, rfl⟩
                intro r
                rfl
              · rw [hN]
                simp only [Prod.snd]
                rw [updateRow_comp]
                refine ⟨tid, row, cands, status, _, rfl, hne, hrow, rfl, rfl, ?_, rfl⟩
                intro r
                rfl
            · rcases hR with ⟨hm0, hR⟩ | ⟨m, hm, hR⟩ <;> rw [hR] <;>
                simp only [Prod.snd]
              · rcases notifyStage_cases_full notifySet now tid row _ status _ _ with hN |
                    ⟨s1, row1, hch1, hst1, hmem1, hlk1, hnn1, hN⟩
                · rw [hN]
                  simp only [Prod.snd]
                  refine ⟨tid, row, cands, status, _, rfl, hne, hrow, rfl, rfl, ?_, rfl⟩
                  intro r
                  rfl
                · rw [hN]
                  simp only [Prod.snd]
                  rw [updateRow_comp]
                  refine ⟨tid, row, cands, status, _, rfl, hne, hrow, rfl, rfl, ?_, rfl⟩
                  intro r
                  rfl
              · rcases notifyStage_cases_full notifySet now tid row _ status _ _ with hN |
                    ⟨s1, row1, hch1, hst1, hmem1, hlk1, hnn1, hN⟩
                · rw [hN]
                  simp only [Prod.snd]
                  rw [updateRow_comp]
                  refine ⟨tid, row, cands, status, _, rfl, hne, hrow, rfl, rfl, ?_, rfl⟩
                  intro r
                  rfl
                · rw [hN]
                  simp only [Prod.snd]
                  rw [updateRow_comp, updateRow_comp]
                  refine ⟨tid, row, cands, status, _, rfl, hne, hrow, rfl, rfl, ?_, rfl⟩
                  intro r
                  rfl

/-- Helper: one webhook pass preserves the fingerprint hygiene invariant. -/
theorem fingerprint_inv_step (simFn : String → String → Bool)
    (notifySet : List Int) (now : String) (rmid : Option Int)
    (payload : Payload) (db : DbState) (hinv : FingerprintInv db) :
    FingerprintInv (idk_webhook simFn notifySet now rmid payload db).db := by
  rcases webhook_db_shape simFn notifySet now rmid payload db with hid |
    ⟨tid, row, cands, status, g, hf, hne, hrow, hc, hs, hg, hdb⟩
  · rw [hid]
    exact hinv
  · intro tid2 row2 s2 hl2 hst2 hfin2
    rw [hdb] at hl2 ⊢
    by_cases heq : tid2 = tid
    · subst heq
      rcases status with _ | s
      · simp only [clearStage] at hl2 ⊢
        rw [lookupTicket_updateRow, hrow] at hl2
        simp only [Option.map_some'] at hl2
        cases hl2
        rw [fingerprintsOf_updateRow]
        have hgr := hg row
        rw [hgr] at hst2
        exact hinv tid2 row s2 hrow hst2 hfin2
      · rw [lookupTicket_clearStage, lookupTicket_updateRow, hrow] at hl2
        simp only [Option.map_some'] at hl2
        cases hl2
        have hgr := hg row
        rw [hgr] at hst2
        injection hst2 with h'
        subst h'
        have hcnt : FINAL_STATUSES.contains s = true := by simpa using hfin2
        simp only [clearStage, hcnt, if_true]
        exact fingerprintsOf_clear_self tid2 _
    · rw [lookupTicket_clearStage, lookupTicket_updateRow_ne tid tid2 heq] at hl2
      rw [fingerprintsOf_clearStage_ne tid tid2 heq, fingerprintsOf_updateRow]
      exact hinv tid2 row2 s2 hl2 hst2 hfin2

/-- C5: a pass whose extracted status is final ends with the ticket's
fingerprint set empty (whether or not the status actually changed), and the
invariant "every ticket stored with a final status has no fingerprints"
holds in every database reachable through webhook passes from a database
satisfying it. -/
theorem final_status_clears_fingerprints :
    (∀ (simFn : String → String → Bool) (notifySet : List Int) (now : String)
      (rmid : Option Int) (payload : Payload) (db : DbState) (tid : String)
      (row : TicketRow) (s : Int),
      find_ticket_id payload = some tid → tid ≠ "" →
      lookupTicket tid db = some row →
      (∃ c, collect_comment_candidates payload = Except.ok c) →
      pick_status payload = Except.ok (some s) → s ∈ FINAL_STATUSES →
      fingerprintsOf tid (idk_webhook simFn notifySet now rmid payload db).db
        = []) ∧
    (∀ db0 db1, FingerprintInv db0 → ReachableDb db0 db1 →
      FingerprintInv db1) := by
  constructor
  · intro simFn notifySet now rmid payload db tid row s hf hne hrow hcands hs
      hmem
    exact webhook_clears_final simFn notifySet now rmid payload db tid row s
      hf hne hrow hcands hs (by simpa using hmem)
  · intro db0 db1 hinv hreach
    revert hinv
    induction hreach with
    | refl => exact fun h => h
    | step db3 simFn notifySet now rmid payload hr ih =>
      intro h0
      exact fingerprint_inv_step simFn notifySet now rmid payload db3 (ih h0)
